import Mathlib

/-!
# csv-report: a verification development

`csv-report` (one Go file, `main.go`) runs the `trivy` scanner with a forced JSON
output into a temporary file, decodes that file, flattens the Kubernetes report
shape into a flat result list and renders it through a CSV template.

This file embeds `main.go` in Lean and proves properties of the embedding.

* Pure helpers (`escapeCsv`, the CVSS pickers, `isK8s`) are Lean functions.
* Effectful code (`main`, `getReportFromJson`, `readJson`, `removeFile`,
  `closeFile`, `getPathToTemplate`) is written in a small trace monad `Act`: an
  action yields how control leaves it (`Ctl`) and the list of effects it
  performed (`Event`).  The operating system, the scanner, the JSON decoder and
  the template engine are answers looked up in a `World`.
* Go strings are modelled by the Lean strings, that is the valid UTF-8 ones; every
  string Trivy decodes from JSON is of this kind.
* `strconv.Quote` and `strings.ReplaceAll` are embedded from the Go standard library;
  the Unicode tables behind `strconv.IsPrint` above U+00FF are a parameter.
* `float64` scores are kept in an arbitrary type with a zero.
* `os.Args` is passed as an argument; the one place where `main.go` can overwrite it
  (the `append` of line 55) is modelled by `argsAfterAppend`.
-/

namespace CsvReport

/-! ## Data model -/

/-- Go's `error` values are kept as their text. -/
abbrev Error := String

/-- Content of a file. -/
abbrev FileData := List Nat

/-- Trivy's `types.Report`: the result list, and every other field (schema version,
artifact name, metadata, ...) gathered in `Header`.  The zero value of the other
fields is `default`. -/
structure Report (H R : Type) where
  Header : H
  Results : List R
deriving DecidableEq, Repr

/-- One entry of a Kubernetes report collection (`k8sReport.Resource`): the resource
identity and the nested result list. -/
structure Resource (R : Type) where
  Namespace : String
  Kind : String
  Name : String
  Results : List R
deriving DecidableEq, Repr

/-- Trivy's `k8sReport.Report`: a vulnerability collection and a misconfiguration
collection. -/
structure KubernetesReport (R : Type) where
  ClusterName : String
  Vulnerabilities : List (Resource R)
  Misconfigurations : List (Resource R)
deriving DecidableEq, Repr

/-! ## Effects -/

/-- The effects `main.go` performs, in the order it performs them. -/
inductive Event where
  | run (name : String) (args : List String)
  | openFile (path : String)
  | closeFile (path : String)
  | createFile (path : String)
  | newTemplateWriter (output template : String)
  | write (output : String)
  | removeFile (path : String)
  | fatal (format : String) (err : Error)
deriving DecidableEq, Repr

/-- How control leaves a piece of Go code: a normal return, `os.Exit` (reached through
`log.Fatalf`), or a panic unwinding the stack. -/
inductive Ctl (α : Type) where
  | ret (a : α)
  | exit (code : Nat)
  | panicked (err : Error)
deriving DecidableEq, Repr

/-- An action: its control outcome and the effects performed. -/
abbrev Act (α : Type) := Ctl α × List Event

/-- Sequencing: the continuation runs only after a normal return. -/
def Act.bind {α β : Type} (x : Act α) (f : α → Act β) : Act β :=
  match x with
  | (Ctl.ret a, t) => ((f a).1, t ++ (f a).2)
  | (Ctl.exit c, t) => (Ctl.exit c, t)
  | (Ctl.panicked e, t) => (Ctl.panicked e, t)

/-- A normal return without effects. -/
def Act.pure {α : Type} (a : α) : Act α := (Ctl.ret a, [])

/-- Perform one effect. -/
def emit (e : Event) : Act Unit := (Ctl.ret (), [e])

/-- Go's `panic(err)`. -/
def goPanic {α : Type} (err : Error) : Act α := (Ctl.panicked err, [])

/-- Go's `log.Fatalf(format, err)`: print, then `os.Exit(1)`. -/
def logFatalf {α : Type} (format : String) (err : Error) : Act α :=
  (Ctl.exit 1, [Event.fatal format err])

/-- Go's `defer d` in front of `body`: the deferred call runs when `body` returns or
panics; `os.Exit` ends the process at once and no deferred call runs. -/
def withDefer {α : Type} (d : Act Unit) (body : Act α) : Act α :=
  match body with
  | (Ctl.ret a, t) =>
    match d with
    | (Ctl.ret _, t') => (Ctl.ret a, t ++ t')
    | (Ctl.exit c, t') => (Ctl.exit c, t ++ t')
    | (Ctl.panicked e, t') => (Ctl.panicked e, t ++ t')
  | (Ctl.exit c, t) => (Ctl.exit c, t)
  | (Ctl.panicked e, t) =>
    match d with
    | (Ctl.ret _, t') => (Ctl.panicked e, t ++ t')
    | (Ctl.exit c, t') => (Ctl.exit c, t ++ t')
    | (Ctl.panicked e', t') => (Ctl.panicked e', t ++ t')

/-- The answers of everything outside `main.go`: the operating system, the scanner
subprocess, `encoding/json` and Trivy's template writer. -/
structure World (H R : Type) where
  tempDir : String
  pathJoin : String → String → String
  pathDir : String → String
  cmdRun : String → List String → Option Error
  osOpen : String → Except Error FileData
  decodeReport : FileData → Except Error (Report H R)
  decodeK8s : FileData → Except Error (KubernetesReport R)
  fileClose : String → Option Error
  osCreate : String → Option Error
  osExecutable : Except Error String
  templateWriter : String → String → Option Error
  writerWrite : String → Report H R → Option Error
  osRemove : String → Option Error
  argsCap : Nat

/-! ## `main.go` -/

/-- Line 21. -/
def tempJsonFileName : String := "csv-report-temp.json"

/-- Line 22. -/
def templateFileName : String := "csv.tpl"

/-- Go's `slices.Contains`. -/
def slicesContains : List String → String → Bool
  | [], _ => false
  | x :: xs, v => if x = v then true else slicesContains xs v

/-- Lines 140-145, with `os.Args` as the argument. -/
def isK8s (osArgs : List String) : Bool :=
  if slicesContains osArgs "kubernetes" || slicesContains osArgs "k8s" then true
  else false

/-- Lines 129-133. -/
def removeFile {H R : Type} (w : World H R) (file : String) : Act Unit :=
  Act.bind (emit (Event.removeFile file)) fun _ =>
  match w.osRemove file with
  | some err => logFatalf "failed to remove file %v" err
  | none => Act.pure ()

/-- Lines 134-138. -/
def closeFile {H R : Type} (w : World H R) (file : String) : Act Unit :=
  Act.bind (emit (Event.closeFile file)) fun _ =>
  match w.fileClose file with
  | some err => logFatalf "failed to remove file %v" err
  | none => Act.pure ()

/-- Lines 106-119: `readJson[T]`, the decoder for `T` passed as `decode`. -/
def readJson {H R T : Type} (w : World H R) (decode : FileData → Except Error T)
    (jsonFileName : String) : Act (Except Error T) :=
  Act.bind (emit (Event.openFile jsonFileName)) fun _ =>
  match w.osOpen jsonFileName with
  | Except.error err => Act.pure (Except.error err)
  | Except.ok jsonFile =>
    withDefer (closeFile w jsonFileName)
      (match decode jsonFile with
       | Except.error err => Act.pure (Except.error err)
       | Except.ok out => Act.pure (Except.ok out))

/-- Lines 93-99: the two `for ... range` loops, each appending the nested results of
one entry to `resultsArr`. -/
def appendResults {R : Type} (resultsArr : List R) : List (Resource R) → List R
  | [] => resultsArr
  | entry :: rest => appendResults (resultsArr ++ entry.Results) rest

/-- Lines 93-103: the flat report built from a decoded Kubernetes report. -/
def flattenK8s {H R : Type} [Inhabited H] (k : KubernetesReport R) : Report H R :=
  let resultsArr : List R := []
  let resultsArr := appendResults resultsArr k.Vulnerabilities
  let resultsArr := appendResults resultsArr k.Misconfigurations
  { Header := default, Results := resultsArr }

/-- Lines 83-104. -/
def getReportFromJson {H R : Type} [Inhabited H] (w : World H R) (osArgs : List String)
    (jsonFileName : String) : Act (Except Error (Report H R)) :=
  if !isK8s osArgs then
    readJson w w.decodeReport jsonFileName
  else
    Act.bind (readJson w w.decodeK8s jsonFileName) fun r =>
    match r with
    | Except.error err => Act.pure (Except.error err)
    | Except.ok k8sParsedReport => Act.pure (Except.ok (flattenK8s k8sParsedReport))

/-- Lines 121-127. -/
def getPathToTemplate {H R : Type} (w : World H R) : Act String :=
  match w.osExecutable with
  | Except.error err => goPanic err
  | Except.ok ex => Act.pure ("@" ++ w.pathJoin (w.pathDir ex) templateFileName)

/-- Go's slice expression `a[lo:hi]`: a run-time panic unless `0 ≤ lo ≤ hi ≤ len a`. -/
def goSlice {α : Type} (a : List α) (lo hi : Int) : Option (List α) :=
  if 0 ≤ lo ∧ lo ≤ hi ∧ hi ≤ (a.length : Int) then
    some ((a.drop lo.toNat).take (hi.toNat - lo.toNat))
  else none

/-- Go's index expression `a[i]`: a run-time panic unless `0 ≤ i < len a`. -/
def goIndex {α : Type} (a : List α) (i : Int) : Option α :=
  if 0 ≤ i then a[i.toNat]? else none

/-- Lines 50-51: the scanner arguments and the output file name. -/
def splitArgs (osArgs : List String) : Option (List String × String) :=
  match goSlice osArgs 1 ((osArgs.length : Int) - 1) with
  | none => none
  | some trivyCommand =>
    match goIndex osArgs ((osArgs.length : Int) - 1) with
    | none => none
    | some outputFileName => some (trivyCommand, outputFileName)

/-- Lines 74-80: what runs under `defer closeFile(outputFile)`. -/
def render {H R : Type} (w : World H R) (outputFileName : String)
    (jsonReport : Report H R) : Act Unit :=
  Act.bind (getPathToTemplate w) fun tpl =>
  Act.bind (emit (Event.newTemplateWriter outputFileName tpl)) fun _ =>
  match w.templateWriter outputFileName tpl with
  | some err => logFatalf "failed to initialize template writer: %v" err
  | none =>
    Act.bind (emit (Event.write outputFileName)) fun _ =>
    match w.writerWrite outputFileName jsonReport with
    | some err => logFatalf "failed to write results: %v" err
    | none => Act.pure ()

/-- Lines 63-80: what follows a successful scanner run. -/
def afterScan {H R : Type} [Inhabited H] (w : World H R) (osArgs : List String)
    (outputFileName tempFileName : String) : Act Unit :=
  Act.bind (getReportFromJson w osArgs tempFileName) fun r =>
  match r with
  | Except.error err => logFatalf "failed to extract jsonReport from json: %v" err
  | Except.ok jsonReport =>
    Act.bind (emit (Event.createFile outputFileName)) fun _ =>
    match w.osCreate outputFileName with
    | some err => logFatalf "failed to create file %v" err
    | none => withDefer (closeFile w outputFileName) (render w outputFileName jsonReport)

/-- Lines 55-80: what runs under `defer removeFile(tempFileName)`. -/
def pipeline {H R : Type} [Inhabited H] (w : World H R) (osArgs trivyCommand : List String)
    (outputFileName tempFileName : String) : Act Unit :=
  let cmdArgs := trivyCommand ++ ["--format", "json", "--output", tempFileName]
  Act.bind (emit (Event.run "trivy" cmdArgs)) fun _ =>
  match w.cmdRun "trivy" cmdArgs with
  | some err => logFatalf "failed to build report: %v" err
  | none => afterScan w osArgs outputFileName tempFileName

/-- The value of `os.Args` after line 55.  `trivyCommand` shares the backing array of
`os.Args`, so `append` writes its four tokens in place when the capacity `argsCap` of
that array has room for them, and the first of them lands on the last element of
`os.Args`; otherwise `append` copies and `os.Args` is untouched. -/
def argsAfterAppend (argsCap : Nat) (osArgs : List String) : List String :=
  if osArgs.length + 3 ≤ argsCap then osArgs.dropLast ++ ["--format"] else osArgs

/-- Lines 49-81. -/
def main {H R : Type} [Inhabited H] (w : World H R) (osArgs : List String) : Act Unit :=
  match splitArgs osArgs with
  | none => goPanic "slice bounds out of range"
  | some (trivyCommand, outputFileName) =>
    let tempFileName := w.pathJoin w.tempDir tempJsonFileName
    withDefer (removeFile w tempFileName)
      (pipeline w (argsAfterAppend w.argsCap osArgs) trivyCommand outputFileName tempFileName)

/-- The effects that create or write the output file. -/
def Event.touchesOutput : Event → Bool
  | Event.createFile _ => true
  | Event.newTemplateWriter _ _ => true
  | Event.write _ => true
  | _ => false

/-- The effects that remove a file. -/
def Event.isRemove : Event → Bool
  | Event.removeFile _ => true
  | _ => false

/-- A Go call returned a non-nil error. -/
def failed {α : Type} : Except Error α → Bool
  | Except.error _ => true
  | Except.ok _ => false

/-- Reading the temporary file `name` fails: it cannot be opened, or the decoder of
the selected shape rejects its content. -/
def decodeFails {H R : Type} (w : World H R) (osArgs : List String) (name : String) : Bool :=
  match w.osOpen name with
  | Except.error _ => true
  | Except.ok data =>
    if isK8s osArgs then failed (w.decodeK8s data) else failed (w.decodeReport data)

/-! ## The template functions (lines 26-46) -/

/-- The double-quote character. -/
def dquote : Char := Char.ofNat 34

/-- The backslash character. -/
def backslash : Char := Char.ofNat 92

/-- Go's `strconv` constant `lowerhex`. -/
def lowerhex : List Char := "0123456789abcdef".data

/-- The hexadecimal digit `lowerhex[n]`. -/
def hexDigit (n : Nat) : Char := lowerhex.getD n '0'

/-- Go's `strconv.IsPrint`.  Up to U+00FF the answer is computed; above, Go searches
its Unicode tables, which are the parameter `tbl`. -/
def IsPrint (tbl : Nat → Bool) (r : Nat) : Bool :=
  if r ≤ 0xFF then
    if 0x20 ≤ r ∧ r ≤ 0x7E then true
    else if 0xA1 ≤ r ∧ r ≤ 0xFF then r != 0xAD
    else false
  else tbl r

/-- Go's `strconv.appendEscapedRune` as `strconv.Quote` calls it (`ASCIIonly` and
`graphicOnly` false): the text appended for the rune `c`.  The case of an invalid rune
is left out: a `Char` is a valid rune. -/
def appendEscapedRune (tbl : Nat → Bool) (c : Char) (quote : Char) : List Char :=
  let r := c.toNat
  if r = quote.toNat ∨ r = backslash.toNat then [backslash, c]
  else if IsPrint tbl r then [c]
  else if r = 7 then [backslash, 'a']
  else if r = 8 then [backslash, 'b']
  else if r = 12 then [backslash, 'f']
  else if r = 10 then [backslash, 'n']
  else if r = 13 then [backslash, 'r']
  else if r = 9 then [backslash, 't']
  else if r = 11 then [backslash, 'v']
  else if r < 0x20 ∨ r = 0x7f then
    [backslash, 'x', hexDigit ((r % 256) >>> 4), hexDigit ((r % 256) &&& 0xF)]
  else if r < 0x10000 then
    [backslash, 'u', hexDigit (r >>> 12 &&& 0xF), hexDigit (r >>> 8 &&& 0xF),
      hexDigit (r >>> 4 &&& 0xF), hexDigit (r >>> 0 &&& 0xF)]
  else
    [backslash, 'U', hexDigit (r >>> 28 &&& 0xF), hexDigit (r >>> 24 &&& 0xF),
      hexDigit (r >>> 20 &&& 0xF), hexDigit (r >>> 16 &&& 0xF),
      hexDigit (r >>> 12 &&& 0xF), hexDigit (r >>> 8 &&& 0xF),
      hexDigit (r >>> 4 &&& 0xF), hexDigit (r >>> 0 &&& 0xF)]

/-- The runes of a string, each escaped, one after the other. -/
def escapeRunes (tbl : Nat → Bool) (quote : Char) : List Char → List Char
  | [] => []
  | c :: s => appendEscapedRune tbl c quote ++ escapeRunes tbl quote s

/-- Go's `strconv.Quote`: a double-quoted Go string literal. -/
def Quote (tbl : Nat → Bool) (s : List Char) : List Char :=
  dquote :: (escapeRunes tbl dquote s ++ [dquote])

/-- Go's `strings.HasPrefix`. -/
def startsWith : List Char → List Char → Bool
  | _, [] => true
  | [], _ :: _ => false
  | c :: s, d :: p => if c = d then startsWith s p else false

/-- The scan of `strings.ReplaceAll` for a non-empty `old`: left to right, every
occurrence of `old` that does not overlap the one before is replaced by `new`.
`skip` counts the characters of a matched occurrence still to pass over. -/
def replaceScan (old new : List Char) : Nat → List Char → List Char
  | _, [] => []
  | skip + 1, _ :: s => replaceScan old new skip s
  | 0, c :: s =>
    if startsWith (c :: s) old then new ++ replaceScan old new (old.length - 1) s
    else c :: replaceScan old new 0 s

/-- The empty `old` of `strings.ReplaceAll`: it matches before every rune and at the
end. -/
def insertAround (new : List Char) : List Char → List Char
  | [] => new
  | c :: s => new ++ c :: insertAround new s

/-- Go's `strings.ReplaceAll`. -/
def ReplaceAll (s old new : List Char) : List Char :=
  match old with
  | [] => insertAround new s
  | _ :: _ => replaceScan old new 0 s

/-- Lines 27-30: `escapeCsv`, on the runes of the input. -/
def escapeCsvRunes (tbl : Nat → Bool) (input : List Char) : List Char :=
  let quoted := Quote tbl input
  ReplaceAll quoted [backslash, dquote] [dquote, dquote]

/-- Lines 27-30: `escapeCsv`. -/
def escapeCsv (tbl : Nat → Bool) (input : String) : String :=
  String.mk (escapeCsvRunes tbl input.data)

/-- Trivy-db's `types.CVSS`, the scores in a number type `F` standing for `float64`. -/
structure CVSS (F : Type) where
  V2Vector : String
  V3Vector : String
  V2Score : F
  V3Score : F
deriving DecidableEq, Repr

/-- The zero value of `types.CVSS`. -/
def CVSS.zero {F : Type} [Zero F] : CVSS F :=
  { V2Vector := "", V3Vector := "", V2Score := 0, V3Score := 0 }

/-- Trivy-db's `types.VendorCVSS`, a Go map from vendor to scores, as its lookup. -/
abbrev VendorCVSS (F : Type) := String → Option (CVSS F)

/-- Go's `m[key]` on a map: the zero value when the key is absent. -/
def mapIndex {F : Type} [Zero F] (m : VendorCVSS F) (key : String) : CVSS F :=
  match m key with
  | some v => v
  | none => CVSS.zero

/-- Go's `m[key] = v`. -/
def mapSet {F : Type} (m : VendorCVSS F) (key : String) (v : CVSS F) : VendorCVSS F :=
  fun k => if k = key then some v else m k

/-- Go's `delete(m, key)`. -/
def mapDelete {F : Type} (m : VendorCVSS F) (key : String) : VendorCVSS F :=
  fun k => if k = key then none else m k

/-- Lines 34-36. -/
def nvdV3Score {F : Type} [Zero F] (input : VendorCVSS F) : F := (mapIndex input "nvd").V3Score

/-- Lines 37-39. -/
def rhV3Score {F : Type} [Zero F] (input : VendorCVSS F) : F := (mapIndex input "redhat").V3Score

/-- Lines 40-42. -/
def nvdV3Vector {F : Type} [Zero F] (input : VendorCVSS F) : String :=
  (mapIndex input "nvd").V3Vector

/-- Lines 43-45. -/
def rhV3Vector {F : Type} [Zero F] (input : VendorCVSS F) : String :=
  (mapIndex input "redhat").V3Vector

/-! ## Reference definitions, written from the specification -/

/-- Every double quote doubled, nothing else changed. -/
def doubleQuotes : List Char → List Char
  | [] => []
  | c :: s => if c = dquote then dquote :: dquote :: doubleQuotes s else c :: doubleQuotes s

/-- The quoted CSV field of a text: a double quote, the text with its quotes doubled,
a double quote. -/
def csvField (s : String) : String :=
  String.mk (dquote :: (doubleQuotes s.data ++ [dquote]))

/-- Every double quote doubled, every other character as `strconv.Quote` writes it:
itself when printable and not a backslash, its Go escape sequence otherwise. -/
def csvBody (tbl : Nat → Bool) : List Char → List Char
  | [] => []
  | c :: s =>
    (if c = dquote then [dquote, dquote] else appendEscapedRune tbl c dquote) ++ csvBody tbl s

/-- Every doubled quote halved. -/
def halveQuotes : List Char → List Char
  | [] => []
  | [c] => [c]
  | c :: d :: s =>
    if c = dquote ∧ d = dquote then dquote :: halveQuotes s else c :: halveQuotes (d :: s)

/-- The outer quotes stripped, then every doubled quote halved. -/
def csvUnquote (s : String) : String :=
  String.mk (halveQuotes (s.data.drop 1).dropLast)

/-- Reading a quoted CSV field after its opening quote: a doubled quote is content, a
single quote closes the field and must be the last character. -/
def closesAtEnd : List Char → Bool
  | [] => false
  | [c] => decide (c = dquote)
  | c :: d :: s =>
    if c = dquote then (if d = dquote then closesAtEnd s else false)
    else closesAtEnd (d :: s)

/-- A well-formed quoted CSV field: an opening quote, then content that closes exactly
at the last character. -/
def isQuotedField (s : String) : Bool :=
  match s.data with
  | [] => false
  | c :: rest => if c = dquote then closesAtEnd rest else false

/-- Printable ASCII: space to tilde. -/
def printableAscii (c : Char) : Prop := 0x20 ≤ c.toNat ∧ c.toNat ≤ 0x7E

instance (c : Char) : Decidable (printableAscii c) := by
  unfold printableAscii; infer_instance


/-! ## Sample inputs -/

/-- A world in which every step succeeds: the temporary file decodes, in either
shape, to reports with numbered results. -/
def okWorld : World Nat Nat :=
  { tempDir := "/tmp"
    pathJoin := fun a b => a ++ "/" ++ b
    pathDir := fun _ => "/usr/local/bin"
    cmdRun := fun _ _ => none
    osOpen := fun _ => Except.ok [123, 125]
    decodeReport := fun _ => Except.ok { Header := 2, Results := [10, 11] }
    decodeK8s := fun _ => Except.ok
      { ClusterName := "kind"
        Vulnerabilities :=
          [{ Namespace := "default", Kind := "Pod", Name := "a", Results := [1, 2] },
           { Namespace := "default", Kind := "Pod", Name := "b", Results := [3] }]
        Misconfigurations :=
          [{ Namespace := "default", Kind := "Pod", Name := "a", Results := [4] }] }
    fileClose := fun _ => none
    osCreate := fun _ => none
    osExecutable := Except.ok "/usr/local/bin/csv-report"
    templateWriter := fun _ _ => none
    writerWrite := fun _ _ => none
    osRemove := fun _ => none
    argsCap := 4 }

/-- The world `okWorld` with a scanner that exits with a failure. -/
def scanFailWorld : World Nat Nat :=
  { okWorld with cmdRun := fun _ _ => some "exit status 1" }

/-- The world `okWorld` with a temporary file that holds malformed JSON. -/
def badJsonWorld : World Nat Nat :=
  { okWorld with
    decodeReport := fun _ => Except.error "unexpected end of JSON input"
    decodeK8s := fun _ => Except.error "unexpected end of JSON input" }

/-- The world `okWorld` in which the output file cannot be created. -/
def createFailWorld : World Nat Nat :=
  { okWorld with osCreate := fun _ => some "permission denied" }

/-- The world `okWorld` in which the template cannot be loaded. -/
def templateFailWorld : World Nat Nat :=
  { okWorld with templateWriter := fun _ _ => some "no such file or directory" }

/-- The world `okWorld` in which rendering fails. -/
def writeFailWorld : World Nat Nat :=
  { okWorld with writerWrite := fun _ _ => some "template: execution failed" }

/-- Print tables under which no rune above U+00FF is printable. -/
def latin1Only : Nat → Bool := fun _ => false

/-- A vendor map with scores for `nvd`, `redhat` and one more vendor; scores are in
tenths. -/
def sampleCvss : VendorCVSS Nat := fun k =>
  if k = "nvd" then
    some { V2Vector := "", V3Vector := "CVSS:3.1/AV:N/AC:L", V2Score := 0, V3Score := 98 }
  else if k = "redhat" then
    some { V2Vector := "", V3Vector := "CVSS:3.1/AV:L/AC:H", V2Score := 0, V3Score := 75 }
  else if k = "ghsa" then
    some { V2Vector := "", V3Vector := "CVSS:3.1/AV:N/AC:H", V2Score := 0, V3Score := 81 }
  else none

/-- The empty vendor map. -/
def emptyCvss : VendorCVSS Nat := fun _ => none

/-- A flat-mode command line. -/
def flatArgs : List String := ["csv-report", "image", "alpine:3.18", "out.csv"]

/-- A Kubernetes-mode command line. -/
def k8sArgs : List String := ["csv-report", "k8s", "cluster", "out.csv"]

/-- A command line of 36 elements whose last element is `k8s` and which has no other
`k8s` or `kubernetes`. -/
def longArgs : List String := "csv-report" :: (List.replicate 34 "x" ++ ["k8s"])

/-- The world `okWorld` with room for 39 elements in the backing array of `os.Args`,
which is what the Go runtime allocates for 36 arguments. -/
def roomyWorld : World Nat Nat :=
  { okWorld with argsCap := 39 }

/-- The world `roomyWorld` with a flat decoder that rejects the temporary file, so
that the trace of `main` shows which decoder was asked. -/
def roomyFlatRejectWorld : World Nat Nat :=
  { roomyWorld with decodeReport := fun _ => Except.error "flat decoder asked" }

/-- The world `roomyFlatRejectWorld` without spare room in the backing array of
`os.Args`. -/
def tightFlatRejectWorld : World Nat Nat :=
  { roomyFlatRejectWorld with argsCap := 36 }

/-! ## Predicates used by the proofs -/

/-- The shapes of an escaped rune. -/
inductive EscShape (c : Char) : List Char → Prop
  | slash : c = dquote ∨ c = backslash → EscShape c [backslash, c]
  | plain : c ≠ dquote → c ≠ backslash → EscShape c [c]
  | code (k : Char) (tail : List Char) :
      k ∈ ['a', 'b', 'f', 'n', 'r', 't', 'v', 'x', 'u', 'U'] →
      (∀ x ∈ tail, x ∈ '0' :: lowerhex) → EscShape c (backslash :: k :: tail)

/-- Control leaves an action through `os.Exit` only with code 1 and right after a
`log.Fatalf`. -/
def ExitOk {α : Type} (x : Act α) : Prop :=
  ∀ c, x.1 = Ctl.exit c → c = 1 ∧ ∃ fmt err, x.2.getLast? = some (Event.fatal fmt err)

/-! ## Lemmas: normalization and mode detection -/

theorem appendResults_eq {R : Type} (entries : List (Resource R)) (acc : List R) :
    appendResults acc entries = acc ++ (entries.map fun e => e.Results).flatten := by
  induction entries generalizing acc with
  | nil => simp [appendResults]
  | cons e rest ih => simp [appendResults, ih]

theorem flattenK8s_results {H R : Type} [Inhabited H] (k : KubernetesReport R) :
    (flattenK8s k : Report H R).Results
      = (k.Vulnerabilities.map fun e => e.Results).flatten
        ++ (k.Misconfigurations.map fun e => e.Results).flatten := by
  simp [flattenK8s, appendResults_eq]

theorem slicesContains_iff (xs : List String) (v : String) :
    slicesContains xs v = true ↔ v ∈ xs := by
  induction xs with
  | nil => simp [slicesContains]
  | cons x xs ih =>
    by_cases h : x = v
    · simp [slicesContains, h]
    · have h' : ¬ v = x := fun e => h e.symm
      simp [slicesContains, h, h', ih]

theorem isK8s_iff (osArgs : List String) :
    isK8s osArgs = true ↔ ("kubernetes" ∈ osArgs ∨ "k8s" ∈ osArgs) := by
  simp [isK8s, slicesContains_iff]

/-! ## Lemmas: escaping, traces, control -/

theorem toNat_inj {c d : Char} (h : c.toNat = d.toNat) : c = d := by
  rw [← Char.ofNat_toNat c, ← Char.ofNat_toNat d, h]

theorem hexDigit_mem (n : Nat) : hexDigit n ∈ '0' :: lowerhex := by
  unfold hexDigit
  rcases Nat.lt_or_ge n 16 with h | h
  · interval_cases n <;> decide
  · have : lowerhex.length ≤ n := by
      have : lowerhex.length = 16 := by decide
      omega
    rw [List.getD_eq_default _ _ this]
    exact List.mem_cons_self _ _

theorem esc_dquote (tbl : Nat → Bool) :
    appendEscapedRune tbl dquote dquote = [backslash, dquote] := by
  simp [appendEscapedRune]

theorem esc_backslash (tbl : Nat → Bool) :
    appendEscapedRune tbl backslash dquote = [backslash, backslash] := by
  simp [appendEscapedRune]

theorem esc_printable (tbl : Nat → Bool) (c : Char) (hp : IsPrint tbl c.toNat = true)
    (hq : c ≠ dquote) (hb : c ≠ backslash) : appendEscapedRune tbl c dquote = [c] := by
  have h1 : ¬ c.toNat = dquote.toNat := fun h => hq (toNat_inj h)
  have h2 : ¬ c.toNat = backslash.toNat := fun h => hb (toNat_inj h)
  simp [appendEscapedRune, h1, h2, hp]

theorem esc_shape (tbl : Nat → Bool) (c : Char) :
    EscShape c (appendEscapedRune tbl c dquote) := by
  have hm := hexDigit_mem
  unfold appendEscapedRune
  by_cases h0 : c.toNat = dquote.toNat ∨ c.toNat = backslash.toNat
  · rw [if_pos h0]
    exact EscShape.slash (h0.imp toNat_inj toNat_inj)
  rw [if_neg h0]
  have hq : c ≠ dquote := fun h => h0 (Or.inl (by rw [h]))
  have hb : c ≠ backslash := fun h => h0 (Or.inr (by rw [h]))
  by_cases h1 : IsPrint tbl c.toNat = true
  · rw [if_pos h1]
    exact EscShape.plain hq hb
  rw [if_neg h1]
  by_cases h2 : c.toNat = 7
  · rw [if_pos h2]
    exact EscShape.code _ [] (by decide) (by simp)
  rw [if_neg h2]
  by_cases h3 : c.toNat = 8
  · rw [if_pos h3]
    exact EscShape.code _ [] (by decide) (by simp)
  rw [if_neg h3]
  by_cases h4 : c.toNat = 12
  · rw [if_pos h4]
    exact EscShape.code _ [] (by decide) (by simp)
  rw [if_neg h4]
  by_cases h5 : c.toNat = 10
  · rw [if_pos h5]
    exact EscShape.code _ [] (by decide) (by simp)
  rw [if_neg h5]
  by_cases h6 : c.toNat = 13
  · rw [if_pos h6]
    exact EscShape.code _ [] (by decide) (by simp)
  rw [if_neg h6]
  by_cases h7 : c.toNat = 9
  · rw [if_pos h7]
    exact EscShape.code _ [] (by decide) (by simp)
  rw [if_neg h7]
  by_cases h8 : c.toNat = 11
  · rw [if_pos h8]
    exact EscShape.code _ [] (by decide) (by simp)
  rw [if_neg h8]
  by_cases h9 : c.toNat < 0x20 ∨ c.toNat = 0x7f
  · rw [if_pos h9]
    refine EscShape.code _ _ (by decide) ?_
    simp only [List.forall_mem_cons]
    exact ⟨hm _, hm _, by simp⟩
  rw [if_neg h9]
  by_cases h10 : c.toNat < 0x10000
  · rw [if_pos h10]
    refine EscShape.code _ _ (by decide) ?_
    simp only [List.forall_mem_cons]
    exact ⟨hm _, hm _, hm _, hm _, by simp⟩
  · rw [if_neg h10]
    refine EscShape.code _ _ (by decide) ?_
    simp only [List.forall_mem_cons]
    exact ⟨hm _, hm _, hm _, hm _, hm _, hm _, hm _, hm _, by simp⟩

theorem code_ne : ∀ y ∈ ['a', 'b', 'f', 'n', 'r', 't', 'v', 'x', 'u', 'U'],
    y ≠ dquote ∧ y ≠ backslash := by decide

theorem hex_ne : ∀ y ∈ '0' :: lowerhex, y ≠ dquote ∧ y ≠ backslash := by decide

theorem esc_no_dquote (tbl : Nat → Bool) (c : Char) (hq : c ≠ dquote) :
    ∀ x ∈ appendEscapedRune tbl c dquote, x ≠ dquote := by
  have hb : backslash ≠ dquote := by decide
  have hs := esc_shape tbl c
  generalize appendEscapedRune tbl c dquote = l at hs
  intro x hx
  cases hs with
  | slash h =>
    simp only [List.mem_cons, List.mem_singleton, List.not_mem_nil, or_false] at hx
    rcases hx with rfl | rfl
    · exact hb
    · exact hq
  | plain _ _ =>
    simp only [List.mem_singleton] at hx
    exact hx ▸ hq
  | code k tail hk ht =>
    simp only [List.mem_cons] at hx
    rcases hx with rfl | rfl | hx
    · exact hb
    · exact (code_ne _ hk).1
    · exact (hex_ne _ (ht _ hx)).1

theorem esc_last (tbl : Nat → Bool) (c : Char) (hb : c ≠ backslash) :
    (appendEscapedRune tbl c dquote).getLast? ≠ some backslash := by
  have hs := esc_shape tbl c
  generalize appendEscapedRune tbl c dquote = l at hs
  cases hs with
  | slash h =>
    rcases h with rfl | rfl
    · decide
    · exact absurd rfl hb
  | plain _ _ => simpa using hb
  | code k tail hk ht =>
    intro h
    have hmem : backslash ∈ k :: tail := by
      rw [List.getLast?_cons_cons] at h
      exact List.mem_of_getLast?_eq_some h
    rcases List.mem_cons.1 hmem with e | e
    · exact (code_ne _ hk).2 e.symm
    · exact (hex_ne _ (ht _ e)).2 rfl

theorem esc_head (tbl : Nat → Bool) (c : Char) (rest : List Char) :
    (appendEscapedRune tbl c dquote ++ rest).head? ≠ some dquote := by
  have hb : ¬ backslash = dquote := by decide
  have hs := esc_shape tbl c
  generalize appendEscapedRune tbl c dquote = l at hs
  cases hs with
  | slash h => simpa using hb
  | plain hq _ => simpa using hq
  | code k tail hk ht => simpa using hb

theorem startsWith_old (c : Char) (t : List Char) :
    startsWith (c :: t) [backslash, dquote] = true ↔ c = backslash ∧ t.head? = some dquote := by
  cases t with
  | nil => simp [startsWith]
  | cons d t => simp [startsWith]

theorem replaceScan_zero_cons (old new : List Char) (c : Char) (s : List Char) :
    replaceScan old new 0 (c :: s)
      = if startsWith (c :: s) old then new ++ replaceScan old new (old.length - 1) s
        else c :: replaceScan old new 0 s := rfl

theorem replaceScan_succ_cons (old new : List Char) (n : Nat) (c : Char) (s : List Char) :
    replaceScan old new (n + 1) (c :: s) = replaceScan old new n s := rfl

theorem scan_clean (p rest : List Char) (hp : ∀ x ∈ p, x ≠ dquote)
    (hlast : p.getLast? ≠ some backslash ∨ rest.head? ≠ some dquote) :
    replaceScan [backslash, dquote] [dquote, dquote] 0 (p ++ rest)
      = p ++ replaceScan [backslash, dquote] [dquote, dquote] 0 rest := by
  induction p with
  | nil => rfl
  | cons c p ih =>
    have hno : ¬ startsWith (c :: (p ++ rest)) [backslash, dquote] = true := by
      rw [startsWith_old]
      rintro ⟨rfl, hh⟩
      cases p with
      | nil =>
        rcases hlast with h | h
        · exact h rfl
        · exact h hh
      | cons d p =>
        simp only [List.cons_append, List.head?_cons, Option.some.injEq] at hh
        exact hp d (by simp) hh
    have ih' := ih (fun x hx => hp x (List.mem_cons_of_mem _ hx)) (by
      cases p with
      | nil => exact Or.inl (by simp)
      | cons d p =>
        rcases hlast with h | h
        · left; rwa [List.getLast?_cons_cons] at h
        · exact Or.inr h)
    rw [List.cons_append, replaceScan_zero_cons, if_neg hno, ih', List.cons_append]

theorem getLast?_tail {c : Char} {s : List Char} (hs : s ≠ [])
    (h : (c :: s).getLast? ≠ some backslash) : s.getLast? ≠ some backslash := by
  cases s with
  | nil => exact absurd rfl hs
  | cons d s => rwa [List.getLast?_cons_cons] at h

theorem scan_body (tbl : Nat → Bool) (s : List Char) (hend : s.getLast? ≠ some backslash) :
    replaceScan [backslash, dquote] [dquote, dquote] 0 (escapeRunes tbl dquote s ++ [dquote])
      = csvBody tbl s ++ [dquote] := by
  induction s with
  | nil => rfl
  | cons c s ih =>
    have hend' : s.getLast? ≠ some backslash := by
      cases s with
      | nil => simp
      | cons d s => exact getLast?_tail (by simp) hend
    by_cases hq : c = dquote
    · subst hq
      have hst : startsWith (backslash :: dquote :: (escapeRunes tbl dquote s ++ [dquote]))
          [backslash, dquote] = true := by
        rw [startsWith_old]; exact ⟨rfl, rfl⟩
      simp only [escapeRunes, csvBody, esc_dquote, if_true, List.cons_append, List.nil_append]
      rw [replaceScan_zero_cons, if_pos hst]
      simp only [List.length_cons, List.length_nil, List.cons_append, List.nil_append]
      rw [replaceScan_succ_cons, ih hend']
    · simp only [escapeRunes, csvBody, if_neg hq, List.append_assoc]
      rw [scan_clean _ _ (esc_no_dquote tbl c hq), ih hend']
      by_cases hb : c = backslash
      · right
        cases s with
        | nil => subst hb; exact absurd rfl hend
        | cons d s =>
          simp only [escapeRunes, List.append_assoc]
          exact esc_head tbl d _
      · left
        exact esc_last tbl c hb

theorem escapeCsvRunes_eq (tbl : Nat → Bool) (s : List Char)
    (hend : s.getLast? ≠ some backslash) :
    escapeCsvRunes tbl s = dquote :: (csvBody tbl s ++ [dquote]) := by
  have hno : ¬ startsWith (dquote :: (escapeRunes tbl dquote s ++ [dquote]))
      [backslash, dquote] = true := by
    rw [startsWith_old]
    rintro ⟨h, -⟩
    revert h
    decide
  simp only [escapeCsvRunes, Quote, ReplaceAll]
  rw [replaceScan_zero_cons, if_neg hno, scan_body tbl s hend]

theorem csvBody_printable (tbl : Nat → Bool) (s : List Char)
    (h : ∀ c ∈ s, IsPrint tbl c.toNat = true ∧ c ≠ backslash) :
    csvBody tbl s = doubleQuotes s := by
  induction s with
  | nil => rfl
  | cons c s ih =>
    have hc := h c (List.mem_cons_self _ _)
    have ih' := ih (fun x hx => h x (List.mem_cons_of_mem _ hx))
    by_cases hq : c = dquote
    · simp [csvBody, doubleQuotes, hq, ih']
    · simp [csvBody, doubleQuotes, hq, ih', esc_printable tbl c hc.1 hq hc.2]

theorem halve_double (s : List Char) : halveQuotes (doubleQuotes s) = s := by
  induction s with
  | nil => rfl
  | cons c s ih =>
    by_cases hq : c = dquote
    · simp [doubleQuotes, hq, halveQuotes, ih]
    · simp only [doubleQuotes, if_neg hq]
      cases hd : doubleQuotes s with
      | nil =>
        rw [hd] at ih
        simp [halveQuotes, ← ih]
      | cons d t =>
        rw [hd] at ih
        simp [halveQuotes, hq, ih]

theorem bind_forall {α β : Type} (Q : Event → Prop) (x : Act α) (f : α → Act β)
    (hx : ∀ e ∈ x.2, Q e) (hf : ∀ a, x.1 = Ctl.ret a → ∀ e ∈ (f a).2, Q e) :
    ∀ e ∈ (Act.bind x f).2, Q e := by
  obtain ⟨c, t⟩ := x
  cases c with
  | ret a =>
    intro e he
    simp only [Act.bind, List.mem_append] at he
    rcases he with he | he
    · exact hx e he
    · exact hf a rfl e he
  | exit c => exact hx
  | panicked err => exact hx

theorem withDefer_forall {α : Type} (Q : Event → Prop) (d : Act Unit) (b : Act α)
    (hd : ∀ e ∈ d.2, Q e) (hb : ∀ e ∈ b.2, Q e) : ∀ e ∈ (withDefer d b).2, Q e := by
  obtain ⟨c, t⟩ := b
  obtain ⟨c', t'⟩ := d
  cases c <;> cases c' <;> intro e he <;>
    simp only [withDefer, List.mem_append] at he <;>
    first
      | exact hb e he
      | (rcases he with he | he
         · exact hb e he
         · exact hd e he)

theorem emit_forall (Q : Event → Prop) (ev : Event) (h : Q ev) : ∀ e ∈ (emit ev).2, Q e := by
  intro e he
  simp only [emit, List.mem_singleton] at he
  exact he ▸ h

theorem pure_forall {α : Type} (Q : Event → Prop) (a : α) : ∀ e ∈ (Act.pure a).2, Q e := by
  intro e he
  simp [Act.pure] at he

theorem goPanic_forall {α : Type} (Q : Event → Prop) (err : Error) :
    ∀ e ∈ (goPanic err : Act α).2, Q e := by
  intro e he
  simp [goPanic] at he

theorem logFatalf_forall {α : Type} (Q : Event → Prop) (fmt : String) (err : Error)
    (h : Q (Event.fatal fmt err)) : ∀ e ∈ (logFatalf fmt err : Act α).2, Q e := by
  intro e he
  simp only [logFatalf, List.mem_singleton] at he
  exact he ▸ h

theorem closeFile_forall {H R : Type} (Q : Event → Prop) (w : World H R) (file : String)
    (hc : Q (Event.closeFile file)) (hf : ∀ fmt err, Q (Event.fatal fmt err)) :
    ∀ e ∈ (closeFile w file).2, Q e := by
  unfold closeFile
  refine bind_forall Q _ _ (emit_forall Q _ hc) fun _ _ => ?_
  cases w.fileClose file with
  | none => exact pure_forall Q _
  | some err => exact logFatalf_forall Q _ _ (hf _ _)

theorem removeFile_forall {H R : Type} (Q : Event → Prop) (w : World H R) (file : String)
    (hc : Q (Event.removeFile file)) (hf : ∀ fmt err, Q (Event.fatal fmt err)) :
    ∀ e ∈ (removeFile w file).2, Q e := by
  unfold removeFile
  refine bind_forall Q _ _ (emit_forall Q _ hc) fun _ _ => ?_
  cases w.osRemove file with
  | none => exact pure_forall Q _
  | some err => exact logFatalf_forall Q _ _ (hf _ _)

theorem readJson_forall {H R T : Type} (Q : Event → Prop) (w : World H R)
    (decode : FileData → Except Error T) (name : String)
    (ho : Q (Event.openFile name)) (hc : Q (Event.closeFile name))
    (hf : ∀ fmt err, Q (Event.fatal fmt err)) :
    ∀ e ∈ (readJson w decode name).2, Q e := by
  unfold readJson
  refine bind_forall Q _ _ (emit_forall Q _ ho) fun _ _ => ?_
  cases w.osOpen name with
  | error err => exact pure_forall Q _
  | ok data =>
    refine withDefer_forall Q _ _ (closeFile_forall Q w name hc hf) ?_
    cases decode data with
    | error err => exact pure_forall Q _
    | ok out => exact pure_forall Q _

theorem getReportFromJson_forall {H R : Type} [Inhabited H] (Q : Event → Prop)
    (w : World H R) (osArgs : List String) (name : String)
    (ho : Q (Event.openFile name)) (hc : Q (Event.closeFile name))
    (hf : ∀ fmt err, Q (Event.fatal fmt err)) :
    ∀ e ∈ (getReportFromJson w osArgs name).2, Q e := by
  unfold getReportFromJson
  split
  · exact readJson_forall Q w _ name ho hc hf
  · refine bind_forall Q _ _ (readJson_forall Q w _ name ho hc hf) fun r _ => ?_
    cases r with
    | error err => exact pure_forall Q _
    | ok k => exact pure_forall Q _

theorem render_forall {H R : Type} (Q : Event → Prop) (w : World H R) (out : String)
    (rep : Report H R) (ht : ∀ tpl, Q (Event.newTemplateWriter out tpl))
    (hw : Q (Event.write out)) (hf : ∀ fmt err, Q (Event.fatal fmt err)) :
    ∀ e ∈ (render w out rep).2, Q e := by
  unfold render
  refine bind_forall Q _ _ ?_ fun tpl _ => ?_
  · unfold getPathToTemplate
    cases w.osExecutable with
    | error err => exact goPanic_forall Q _
    | ok ex => exact pure_forall Q _
  refine bind_forall Q _ _ (emit_forall Q _ (ht tpl)) fun _ _ => ?_
  cases w.templateWriter out tpl with
  | some err => exact logFatalf_forall Q _ _ (hf _ _)
  | none =>
    refine bind_forall Q _ _ (emit_forall Q _ hw) fun _ _ => ?_
    cases w.writerWrite out rep with
    | some err => exact logFatalf_forall Q _ _ (hf _ _)
    | none => exact pure_forall Q _

theorem afterScan_forall {H R : Type} [Inhabited H] (Q : Event → Prop) (w : World H R)
    (osArgs : List String) (out tmp : String)
    (ho : Q (Event.openFile tmp)) (hc : Q (Event.closeFile tmp))
    (hcr : Q (Event.createFile out)) (hco : Q (Event.closeFile out))
    (ht : ∀ tpl, Q (Event.newTemplateWriter out tpl)) (hw : Q (Event.write out))
    (hf : ∀ fmt err, Q (Event.fatal fmt err)) :
    ∀ e ∈ (afterScan w osArgs out tmp).2, Q e := by
  unfold afterScan
  refine bind_forall Q _ _ (getReportFromJson_forall Q w osArgs tmp ho hc hf) fun r _ => ?_
  cases r with
  | error err => exact logFatalf_forall Q _ _ (hf _ _)
  | ok rep =>
    refine bind_forall Q _ _ (emit_forall Q _ hcr) fun _ _ => ?_
    cases w.osCreate out with
    | some err => exact logFatalf_forall Q _ _ (hf _ _)
    | none =>
      exact withDefer_forall Q _ _ (closeFile_forall Q w out hco hf)
        (render_forall Q w out rep ht hw hf)

theorem pipeline_forall {H R : Type} [Inhabited H] (Q : Event → Prop) (w : World H R)
    (osArgs cmd : List String) (out tmp : String)
    (hr : Q (Event.run "trivy" (cmd ++ ["--format", "json", "--output", tmp])))
    (ho : Q (Event.openFile tmp)) (hc : Q (Event.closeFile tmp))
    (hcr : Q (Event.createFile out)) (hco : Q (Event.closeFile out))
    (ht : ∀ tpl, Q (Event.newTemplateWriter out tpl)) (hw : Q (Event.write out))
    (hf : ∀ fmt err, Q (Event.fatal fmt err)) :
    ∀ e ∈ (pipeline w osArgs cmd out tmp).2, Q e := by
  unfold pipeline
  refine bind_forall Q _ _ (emit_forall Q _ hr) fun _ _ => ?_
  cases w.cmdRun "trivy" (cmd ++ ["--format", "json", "--output", tmp]) with
  | some err => exact logFatalf_forall Q _ _ (hf _ _)
  | none => exact afterScan_forall Q w osArgs out tmp ho hc hcr hco ht hw hf

theorem splitArgs_some (osArgs : List String) (h : 2 ≤ osArgs.length) :
    ∃ prog out, osArgs = prog :: ((osArgs.drop 1).take (osArgs.length - 2) ++ [out])
      ∧ osArgs[osArgs.length - 1]? = some out
      ∧ splitArgs osArgs = some ((osArgs.drop 1).take (osArgs.length - 2), out) := by
  cases osArgs with
  | nil => simp at h
  | cons prog rest =>
    have hne : rest ≠ [] := by
      intro e
      simp [e] at h
    have hlen : 1 ≤ rest.length := by
      simp only [List.length_cons] at h
      omega
    have hidx : (prog :: rest)[(prog :: rest).length - 1]? = some (rest.getLast hne) := by
      rw [← List.getLast?_eq_getElem?]
      obtain ⟨d, t, rfl⟩ := List.exists_cons_of_ne_nil hne
      rw [List.getLast?_cons_cons, List.getLast?_eq_getLast _ hne]
    refine ⟨prog, rest.getLast hne, ?_, hidx, ?_⟩
    · have : (prog :: rest).length - 2 = rest.length - 1 := by simp
      rw [this, List.drop_one, List.tail_cons, ← List.dropLast_eq_take,
        List.dropLast_append_getLast hne]
    · have hs : goSlice (prog :: rest) 1 (((prog :: rest).length : Int) - 1)
          = some (((prog :: rest).drop 1).take ((prog :: rest).length - 2)) := by
        have hc : (0 : Int) ≤ 1 ∧ (1 : Int) ≤ ((prog :: rest).length : Int) - 1
            ∧ ((prog :: rest).length : Int) - 1 ≤ ((prog :: rest).length : Int) := by
          refine ⟨by omega, by omega, by omega⟩
        have h1 : ((1 : Int)).toNat = 1 := rfl
        have h2 : (((prog :: rest).length : Int) - 1).toNat - 1 = (prog :: rest).length - 2 := by
          omega
        rw [goSlice, if_pos hc, h1, h2]
      have hi : goIndex (prog :: rest) (((prog :: rest).length : Int) - 1)
          = some (rest.getLast hne) := by
        have hc : (0 : Int) ≤ ((prog :: rest).length : Int) - 1 := by omega
        have h2 : (((prog :: rest).length : Int) - 1).toNat = (prog :: rest).length - 1 := by
          omega
        rw [goIndex, if_pos hc, h2, hidx]
      rw [splitArgs, hs]
      simp only
      rw [hi]

theorem splitArgs_none (osArgs : List String) (h : osArgs.length < 2) :
    splitArgs osArgs = none := by
  have hc : ¬ ((0 : Int) ≤ 1 ∧ (1 : Int) ≤ (osArgs.length : Int) - 1
      ∧ (osArgs.length : Int) - 1 ≤ (osArgs.length : Int)) := by
    rintro ⟨-, h1, -⟩
    omega
  rw [splitArgs, goSlice, if_neg hc]


theorem exitOk_bind {α β : Type} (x : Act α) (f : α → Act β)
    (hx : ExitOk x) (hf : ∀ a, ExitOk (f a)) : ExitOk (Act.bind x f) := by
  obtain ⟨c, t⟩ := x
  cases c with
  | ret a =>
    intro c hc
    obtain ⟨h1, fmt, err, h2⟩ := hf a c hc
    refine ⟨h1, fmt, err, ?_⟩
    simp only [Act.bind, List.getLast?_append, h2]
    rfl
  | exit c =>
    intro k hk
    simp only [Act.bind, Ctl.exit.injEq] at hk
    obtain ⟨h1, fmt, err, h2⟩ := hx c rfl
    exact ⟨hk ▸ h1, fmt, err, h2⟩
  | panicked err =>
    intro k hk
    simp [Act.bind] at hk

theorem exitOk_withDefer {α : Type} (d : Act Unit) (b : Act α)
    (hd : ExitOk d) (hb : ExitOk b) : ExitOk (withDefer d b) := by
  obtain ⟨c, t⟩ := b
  obtain ⟨c', t'⟩ := d
  cases c with
  | exit c => exact fun k hk => hb k hk
  | ret a =>
    cases c' with
    | ret u => intro c hc; simp [withDefer] at hc
    | panicked e => intro c hc; simp [withDefer] at hc
    | exit k =>
      intro c hc
      simp only [withDefer, Ctl.exit.injEq] at hc
      obtain ⟨h1, fmt, err, h2⟩ := hd k rfl
      simp only at h2
      refine ⟨hc ▸ h1, fmt, err, ?_⟩
      simp only [withDefer, List.getLast?_append, h2]
      rfl
  | panicked e0 =>
    cases c' with
    | ret u => intro c hc; simp [withDefer] at hc
    | panicked e => intro c hc; simp [withDefer] at hc
    | exit k =>
      intro c hc
      simp only [withDefer, Ctl.exit.injEq] at hc
      obtain ⟨h1, fmt, err, h2⟩ := hd k rfl
      simp only at h2
      refine ⟨hc ▸ h1, fmt, err, ?_⟩
      simp only [withDefer, List.getLast?_append, h2]
      rfl

theorem exitOk_emit (ev : Event) : ExitOk (emit ev) := by
  intro c hc; simp [emit] at hc

theorem exitOk_pure {α : Type} (a : α) : ExitOk (Act.pure a) := by
  intro c hc; simp [Act.pure] at hc

theorem exitOk_goPanic {α : Type} (err : Error) : ExitOk (goPanic err : Act α) := by
  intro c hc; simp [goPanic] at hc

theorem exitOk_logFatalf {α : Type} (fmt : String) (err : Error) :
    ExitOk (logFatalf fmt err : Act α) := by
  intro c hc
  simp only [logFatalf, Ctl.exit.injEq] at hc
  exact ⟨hc.symm, fmt, err, rfl⟩

theorem exitOk_closeFile {H R : Type} (w : World H R) (file : String) :
    ExitOk (closeFile w file) := by
  unfold closeFile
  refine exitOk_bind _ _ (exitOk_emit _) fun _ => ?_
  cases w.fileClose file with
  | none => exact exitOk_pure _
  | some err => exact exitOk_logFatalf _ _

theorem exitOk_removeFile {H R : Type} (w : World H R) (file : String) :
    ExitOk (removeFile w file) := by
  unfold removeFile
  refine exitOk_bind _ _ (exitOk_emit _) fun _ => ?_
  cases w.osRemove file with
  | none => exact exitOk_pure _
  | some err => exact exitOk_logFatalf _ _

theorem exitOk_readJson {H R T : Type} (w : World H R)
    (decode : FileData → Except Error T) (name : String) :
    ExitOk (readJson w decode name) := by
  unfold readJson
  refine exitOk_bind _ _ (exitOk_emit _) fun _ => ?_
  cases w.osOpen name with
  | error err => exact exitOk_pure _
  | ok data =>
    refine exitOk_withDefer _ _ (exitOk_closeFile w name) ?_
    cases decode data with
    | error err => exact exitOk_pure _
    | ok out => exact exitOk_pure _

theorem exitOk_getReportFromJson {H R : Type} [Inhabited H]
    (w : World H R) (osArgs : List String) (name : String) :
    ExitOk (getReportFromJson w osArgs name) := by
  unfold getReportFromJson
  split
  · exact exitOk_readJson w _ name
  · refine exitOk_bind _ _ (exitOk_readJson w _ name) fun r => ?_
    cases r with
    | error err => exact exitOk_pure _
    | ok k => exact exitOk_pure _

theorem exitOk_render {H R : Type} (w : World H R) (out : String) (rep : Report H R) :
    ExitOk (render w out rep) := by
  unfold render
  refine exitOk_bind _ _ ?_ fun tpl => ?_
  · unfold getPathToTemplate
    cases w.osExecutable with
    | error err => exact exitOk_goPanic _
    | ok ex => exact exitOk_pure _
  refine exitOk_bind _ _ (exitOk_emit _) fun _ => ?_
  cases w.templateWriter out tpl with
  | some err => exact exitOk_logFatalf _ _
  | none =>
    refine exitOk_bind _ _ (exitOk_emit _) fun _ => ?_
    cases w.writerWrite out rep with
    | some err => exact exitOk_logFatalf _ _
    | none => exact exitOk_pure _

theorem exitOk_afterScan {H R : Type} [Inhabited H] (w : World H R)
    (osArgs : List String) (out tmp : String) : ExitOk (afterScan w osArgs out tmp) := by
  unfold afterScan
  refine exitOk_bind _ _ (exitOk_getReportFromJson w osArgs tmp) fun r => ?_
  cases r with
  | error err => exact exitOk_logFatalf _ _
  | ok rep =>
    refine exitOk_bind _ _ (exitOk_emit _) fun _ => ?_
    cases w.osCreate out with
    | some err => exact exitOk_logFatalf _ _
    | none =>
      exact exitOk_withDefer _ _ (exitOk_closeFile w out) (exitOk_render w out rep)

theorem exitOk_pipeline {H R : Type} [Inhabited H] (w : World H R)
    (osArgs cmd : List String) (out tmp : String) :
    ExitOk (pipeline w osArgs cmd out tmp) := by
  unfold pipeline
  refine exitOk_bind _ _ (exitOk_emit _) fun _ => ?_
  cases w.cmdRun "trivy" (cmd ++ ["--format", "json", "--output", tmp]) with
  | some err => exact exitOk_logFatalf _ _
  | none => exact exitOk_afterScan w osArgs out tmp

theorem exitOk_main {H R : Type} [Inhabited H] (w : World H R) (osArgs : List String) :
    ExitOk (main w osArgs) := by
  unfold main
  cases splitArgs osArgs with
  | none => exact exitOk_goPanic _
  | some p =>
    obtain ⟨cmd, out⟩ := p
    exact exitOk_withDefer _ _ (exitOk_removeFile w _) (exitOk_pipeline w _ cmd out _)

theorem failed_iff {α : Type} (x : Except Error α) :
    failed x = true ↔ ∃ err, x = Except.error err := by
  cases x with
  | error e => exact ⟨fun _ => ⟨e, rfl⟩, fun _ => rfl⟩
  | ok a =>
    constructor
    · intro h
      cases h
    · rintro ⟨e, h⟩
      cases h

theorem readJson_fails {H R T : Type} (w : World H R) (decode : FileData → Except Error T)
    (name : String)
    (h : ∀ data, w.osOpen name = Except.ok data → failed (decode data) = true) :
    ∀ out, (readJson w decode name).1 ≠ Ctl.ret (Except.ok out) := by
  intro out
  unfold readJson
  cases ho : w.osOpen name with
  | error err => simp [Act.bind, emit, Act.pure]
  | ok data =>
    obtain ⟨err, hd⟩ := (failed_iff _).1 (h data ho)
    simp only [hd]
    unfold closeFile
    cases w.fileClose name with
    | none => simp [Act.bind, emit, Act.pure, withDefer]
    | some e => simp [Act.bind, emit, Act.pure, withDefer, logFatalf]

theorem getReport_fails {H R : Type} [Inhabited H] (w : World H R) (osArgs : List String)
    (name : String) (h : decodeFails w osArgs name = true) :
    ∀ rep, (getReportFromJson w osArgs name).1 ≠ Ctl.ret (Except.ok rep) := by
  intro rep
  unfold getReportFromJson
  unfold decodeFails at h
  cases hm : isK8s osArgs with
  | false =>
    simp only [Bool.not_false, if_true]
    refine readJson_fails w _ name ?_ rep
    intro data ho
    simpa [ho, hm] using h
  | true =>
    simp only [Bool.not_true, Bool.false_eq_true, if_false]
    have hk : ∀ k, (readJson w w.decodeK8s name).1 ≠ Ctl.ret (Except.ok k) := by
      refine readJson_fails w _ name ?_
      intro data ho
      simpa [ho, hm] using h
    generalize readJson w w.decodeK8s name = x at hk
    obtain ⟨c, t⟩ := x
    cases c with
    | exit c => simp [Act.bind]
    | panicked e => simp [Act.bind]
    | ret r =>
      cases r with
      | error err => simp [Act.bind, Act.pure]
      | ok k => exact absurd rfl (hk k)

theorem closes_clean (p rest : List Char) (hp : ∀ x ∈ p, x ≠ dquote) :
    closesAtEnd (p ++ rest) = closesAtEnd rest := by
  induction p with
  | nil => rfl
  | cons c p ih =>
    have hc : c ≠ dquote := hp c (List.mem_cons_self _ _)
    have ih' := ih fun x hx => hp x (List.mem_cons_of_mem _ hx)
    rw [← ih', List.cons_append]
    cases p ++ rest with
    | nil => simp [closesAtEnd, hc]
    | cons d t => simp [closesAtEnd, hc]

theorem closes_body (tbl : Nat → Bool) (s rest : List Char) :
    closesAtEnd (csvBody tbl s ++ rest) = closesAtEnd rest := by
  induction s with
  | nil => rfl
  | cons c s ih =>
    by_cases hq : c = dquote
    · simp [csvBody, hq, closesAtEnd, ih]
    · simp only [csvBody, if_neg hq, List.append_assoc]
      rw [closes_clean _ _ (esc_no_dquote tbl c hq), ih]

theorem scan_body_bs (tbl : Nat → Bool) (s : List Char) :
    replaceScan [backslash, dquote] [dquote, dquote] 0
        (escapeRunes tbl dquote (s ++ [backslash]) ++ [dquote])
      = csvBody tbl s ++ [backslash, dquote, dquote] := by
  induction s with
  | nil =>
    simp only [List.nil_append, escapeRunes, esc_backslash, csvBody]
    rfl
  | cons c s ih =>
    rw [List.cons_append]
    by_cases hq : c = dquote
    · subst hq
      have hst : startsWith
          (backslash :: dquote :: (escapeRunes tbl dquote (s ++ [backslash]) ++ [dquote]))
          [backslash, dquote] = true := by
        rw [startsWith_old]; exact ⟨rfl, rfl⟩
      simp only [escapeRunes, csvBody, esc_dquote, if_true, List.cons_append, List.nil_append]
      rw [replaceScan_zero_cons, if_pos hst]
      simp only [List.length_cons, List.length_nil, List.cons_append, List.nil_append]
      rw [replaceScan_succ_cons, ih]
    · simp only [List.cons_append, escapeRunes, csvBody, if_neg hq, List.append_assoc]
      rw [scan_clean _ _ (esc_no_dquote tbl c hq), ih]
      right
      cases s with
      | nil =>
        rw [List.nil_append]
        simp only [escapeRunes, List.append_assoc]
        exact esc_head tbl _ _
      | cons d s =>
        rw [List.cons_append]
        simp only [escapeRunes, List.append_assoc]
        exact esc_head tbl d _

theorem escapeCsvRunes_bs (tbl : Nat → Bool) (s : List Char) :
    escapeCsvRunes tbl (s ++ [backslash])
      = dquote :: (csvBody tbl s ++ [backslash, dquote, dquote]) := by
  have hno : ¬ startsWith (dquote :: (escapeRunes tbl dquote (s ++ [backslash]) ++ [dquote]))
      [backslash, dquote] = true := by
    rw [startsWith_old]
    rintro ⟨h, -⟩
    revert h
    decide
  simp only [escapeCsvRunes, Quote, ReplaceAll]
  rw [replaceScan_zero_cons, if_neg hno, scan_body_bs tbl s]

/-- The output of `escapeCsv` is a well-formed quoted CSV field exactly when the input
does not end in a backslash. -/
theorem isQuotedField_escapeCsv_iff (tbl : Nat → Bool) (s : String) :
    isQuotedField (escapeCsv tbl s) = true ↔ s.data.getLast? ≠ some backslash := by
  constructor
  · intro h hl
    obtain ⟨t, ht⟩ : ∃ t, s.data = t ++ [backslash] := by
      have hne : s.data ≠ [] := by
        intro e
        rw [e] at hl
        simp at hl
      refine ⟨s.data.dropLast, ?_⟩
      have h1 := List.dropLast_append_getLast hne
      rw [List.getLast?_eq_getLast _ hne, Option.some.injEq] at hl
      rw [hl] at h1
      exact h1.symm
    have hb : ¬ backslash = dquote := by decide
    simp only [isQuotedField, escapeCsv, ht, escapeCsvRunes_bs, if_true, closes_body] at h
    simp [closesAtEnd, hb] at h
  · intro hl
    simp only [isQuotedField, escapeCsv, escapeCsvRunes_eq tbl _ hl, if_true, closes_body]
    simp [closesAtEnd]

theorem csvBody_append (tbl : Nat → Bool) (a b : List Char) :
    csvBody tbl (a ++ b) = csvBody tbl a ++ csvBody tbl b := by
  induction a with
  | nil => rfl
  | cons c a ih => rw [List.cons_append, csvBody, csvBody, ih, List.append_assoc]

theorem isPrint_ascii (tbl : Nat → Bool) (c : Char) (h : printableAscii c) :
    IsPrint tbl c.toNat = true := by
  obtain ⟨h1, h2⟩ := h
  have h3 : c.toNat ≤ 0xFF := by omega
  simp [IsPrint, h1, h2, h3]

theorem escapeCsv_unescaped (tbl : Nat → Bool) (s : String)
    (h : ∀ c ∈ s.data, IsPrint tbl c.toNat = true ∧ c ≠ backslash) :
    escapeCsv tbl s = csvField s := by
  have hend : s.data.getLast? ≠ some backslash := fun hl =>
    (h _ (List.mem_of_getLast?_eq_some hl)).2 rfl
  simp only [escapeCsv, csvField, escapeCsvRunes_eq tbl _ hend, csvBody_printable tbl _ h]

theorem csvUnquote_csvField (s : String) : csvUnquote (csvField s) = s := by
  simp only [csvUnquote, csvField, List.drop_one, List.tail_cons, List.dropLast_concat,
    halve_double]

theorem readJson_no_panic {H R T : Type} (w : World H R)
    (decode : FileData → Except Error T) (name : String) (err : Error) :
    (readJson w decode name).1 ≠ Ctl.panicked err := by
  unfold readJson closeFile
  cases w.osOpen name with
  | error e => simp [Act.bind, emit, Act.pure]
  | ok data =>
    cases hd : decode data <;> cases hc : w.fileClose name <;>
      simp [Act.bind, emit, Act.pure, withDefer, logFatalf, hd, hc]

theorem getReportFromJson_no_panic {H R : Type} [Inhabited H] (w : World H R)
    (osArgs : List String) (name : String) (err : Error) :
    (getReportFromJson w osArgs name).1 ≠ Ctl.panicked err := by
  unfold getReportFromJson
  split
  · exact readJson_no_panic w _ name err
  · have h := readJson_no_panic w w.decodeK8s name
    generalize readJson w w.decodeK8s name = x at h
    obtain ⟨c, t⟩ := x
    cases c with
    | exit c => simp [Act.bind]
    | panicked e => exact fun _ => h e rfl
    | ret r => cases r <;> simp [Act.bind, Act.pure]

theorem pipeline_scan_fail {H R : Type} [Inhabited H] (w : World H R)
    (osArgs cmd : List String) (out tmp : String) (err : Error)
    (h : w.cmdRun "trivy" (cmd ++ ["--format", "json", "--output", tmp]) = some err) :
    pipeline w osArgs cmd out tmp
      = (Ctl.exit 1, [Event.run "trivy" (cmd ++ ["--format", "json", "--output", tmp]),
          Event.fatal "failed to build report: %v" err]) := by
  simp [pipeline, h, Act.bind, emit, logFatalf]

theorem pipeline_scan_ok {H R : Type} [Inhabited H] (w : World H R)
    (osArgs cmd : List String) (out tmp : String)
    (h : w.cmdRun "trivy" (cmd ++ ["--format", "json", "--output", tmp]) = none) :
    pipeline w osArgs cmd out tmp
      = ((afterScan w osArgs out tmp).1,
          Event.run "trivy" (cmd ++ ["--format", "json", "--output", tmp])
            :: (afterScan w osArgs out tmp).2) := by
  simp [pipeline, h, Act.bind, emit]

theorem afterScan_decode_failure {H R : Type} [Inhabited H] (w : World H R)
    (osArgs : List String) (out tmp : String) (hdec : decodeFails w osArgs tmp = true) :
    (afterScan w osArgs out tmp).1 = Ctl.exit 1
    ∧ ∀ e ∈ (afterScan w osArgs out tmp).2, e.touchesOutput = false := by
  have hrep := getReport_fails w osArgs tmp hdec
  have hev := getReportFromJson_forall (fun e => e.touchesOutput = false) w osArgs tmp
    rfl rfl (fun _ _ => rfl)
  have hex := exitOk_getReportFromJson w osArgs tmp
  have hnp := getReportFromJson_no_panic w osArgs tmp
  unfold afterScan
  generalize getReportFromJson w osArgs tmp = x at hrep hev hex hnp
  obtain ⟨c, t⟩ := x
  cases c with
  | panicked e => exact absurd rfl (hnp e)
  | exit k =>
    obtain ⟨hk, -⟩ := hex k rfl
    subst hk
    exact ⟨rfl, hev⟩
  | ret r =>
    cases r with
    | ok rep => exact absurd rfl (hrep rep)
    | error err =>
      refine ⟨rfl, ?_⟩
      intro e he
      simp only [Act.bind, logFatalf, List.mem_append, List.mem_singleton] at he
      rcases he with he | rfl
      · exact hev e he
      · rfl

theorem pipeline_decode_failure {H R : Type} [Inhabited H] (w : World H R)
    (osArgs cmd : List String) (out tmp : String) (hdec : decodeFails w osArgs tmp = true) :
    (pipeline w osArgs cmd out tmp).1 = Ctl.exit 1
    ∧ ∀ e ∈ (pipeline w osArgs cmd out tmp).2, e.touchesOutput = false := by
  cases hc : w.cmdRun "trivy" (cmd ++ ["--format", "json", "--output", tmp]) with
  | some err =>
    rw [pipeline_scan_fail w osArgs cmd out tmp err hc]
    refine ⟨rfl, ?_⟩
    intro e he
    simp only [List.mem_cons, List.mem_singleton, List.not_mem_nil, or_false] at he
    rcases he with rfl | rfl <;> rfl
  | none =>
    rw [pipeline_scan_ok w osArgs cmd out tmp hc]
    obtain ⟨h1, h2⟩ := afterScan_decode_failure w osArgs out tmp hdec
    refine ⟨h1, ?_⟩
    intro e he
    simp only [List.mem_cons] at he
    rcases he with rfl | he
    · rfl
    · exact h2 e he

theorem withDefer_exit {α : Type} (d : Act Unit) (b : Act α) (c : Nat)
    (h : b.1 = Ctl.exit c) : withDefer d b = b := by
  obtain ⟨k, t⟩ := b
  simp only at h
  subst h
  rfl

theorem withDefer_trace {α : Type} (d : Act Unit) (b : Act α) :
    (withDefer d b).2 = b.2 ∨ (withDefer d b).2 = b.2 ++ d.2 := by
  obtain ⟨c, t⟩ := b
  obtain ⟨c', t'⟩ := d
  cases c <;> cases c' <;> simp [withDefer]

/-- When `main` leaves through `os.Exit`, a removal of the temporary file was attempted
only if the removal itself is what failed. -/
theorem main_exit_skips_removal {H R : Type} [Inhabited H] (w : World H R)
    (osArgs : List String) (c : Nat) (hexit : (main w osArgs).1 = Ctl.exit c)
    (hrm : w.osRemove (w.pathJoin w.tempDir tempJsonFileName) = none) :
    ∀ e ∈ (main w osArgs).2, e.isRemove = false := by
  unfold main at hexit ⊢
  cases hs : splitArgs osArgs with
  | none => simp [goPanic]
  | some p =>
    obtain ⟨cmd, out⟩ := p
    rw [hs] at hexit
    simp only at hexit ⊢
    have hp := pipeline_forall (fun e => e.isRemove = false) w
      (argsAfterAppend w.argsCap osArgs) cmd out (w.pathJoin w.tempDir tempJsonFileName)
      rfl rfl rfl rfl rfl (fun _ => rfl) rfl (fun _ _ => rfl)
    generalize pipeline w (argsAfterAppend w.argsCap osArgs) cmd out
      (w.pathJoin w.tempDir tempJsonFileName) = x at hexit hp
    obtain ⟨k, t⟩ := x
    cases k with
    | exit k => exact hp
    | ret a => simp [withDefer, removeFile, hrm, Act.bind, emit, Act.pure] at hexit
    | panicked e => simp [withDefer, removeFile, hrm, Act.bind, emit, Act.pure] at hexit

theorem pipeline_trace {H R : Type} [Inhabited H] (w : World H R)
    (osArgs cmd : List String) (out tmp : String) :
    ∃ rest, (pipeline w osArgs cmd out tmp).2
        = Event.run "trivy" (cmd ++ ["--format", "json", "--output", tmp]) :: rest
      ∧ ∀ e ∈ rest, (∀ n a, e ≠ Event.run n a) ∧ (∀ p, e = Event.createFile p → p = out)
          ∧ (∀ p tpl, e = Event.newTemplateWriter p tpl → p = out)
          ∧ (∀ p, e = Event.write p → p = out) := by
  cases hc : w.cmdRun "trivy" (cmd ++ ["--format", "json", "--output", tmp]) with
  | some err =>
    rw [pipeline_scan_fail w osArgs cmd out tmp err hc]
    refine ⟨_, rfl, ?_⟩
    intro e he
    simp only [List.mem_singleton] at he
    subst he
    simp
  | none =>
    rw [pipeline_scan_ok w osArgs cmd out tmp hc]
    refine ⟨_, rfl, ?_⟩
    refine afterScan_forall _ w osArgs out tmp ?_ ?_ ?_ ?_ ?_ ?_ ?_ <;> simp

/-! ## Normalization and mode detection -/

/-- C1: in Kubernetes mode, when `readJson` returns a decoded Kubernetes report `k`,
`getReportFromJson` returns a report whose results are the nested result lists of the
vulnerability entries, in input order, followed by those of the misconfiguration
entries, in input order; its length is the sum of the lengths of all nested lists. -/
theorem getReportFromJson_k8s_concat {H R : Type} [Inhabited H] (w : World H R)
    (osArgs : List String) (jsonFileName : String) (k : KubernetesReport R)
    (hmode : isK8s osArgs = true)
    (hread : (readJson w w.decodeK8s jsonFileName).1 = Ctl.ret (Except.ok k)) :
    ∃ rep : Report H R,
      (getReportFromJson w osArgs jsonFileName).1 = Ctl.ret (Except.ok rep)
      ∧ rep.Results = (k.Vulnerabilities.map fun e => e.Results).flatten
          ++ (k.Misconfigurations.map fun e => e.Results).flatten
      ∧ rep.Results.length = (k.Vulnerabilities.map fun e => e.Results.length).sum
          + (k.Misconfigurations.map fun e => e.Results.length).sum := by
  refine ⟨flattenK8s k, ?_, flattenK8s_results k, ?_⟩
  · unfold getReportFromJson
    rw [hmode]
    generalize readJson w w.decodeK8s jsonFileName = x at hread
    obtain ⟨c, t⟩ := x
    simp only at hread
    subst hread
    simp [Act.bind, Act.pure]
  · rw [flattenK8s_results]
    simp [List.length_flatten, Function.comp_def]

/-- C1 at `okWorld` and `k8sArgs`: two vulnerability entries with results `[1, 2]` and
`[3]` and one misconfiguration entry with results `[4]` give `[1, 2, 3, 4]`. -/
theorem getReportFromJson_k8s_concat_witness :
    ∃ rep : Report Nat Nat,
      (getReportFromJson okWorld k8sArgs "/tmp/csv-report-temp.json").1
        = Ctl.ret (Except.ok rep)
      ∧ rep.Results = [1, 2, 3, 4]
      ∧ rep.Results.length = 4 :=
  getReportFromJson_k8s_concat okWorld k8sArgs "/tmp/csv-report-temp.json"
    { ClusterName := "kind"
      Vulnerabilities :=
        [{ Namespace := "default", Kind := "Pod", Name := "a", Results := [1, 2] },
         { Namespace := "default", Kind := "Pod", Name := "b", Results := [3] }]
      Misconfigurations :=
        [{ Namespace := "default", Kind := "Pod", Name := "a", Results := [4] }] }
    (by decide) (by rfl)

/-- On the list it is handed, `isK8s` is true exactly when some element is
`kubernetes` or is `k8s`; when it is false `getReportFromJson` decodes the flat
report shape, and when it is true the Kubernetes shape. -/
theorem isK8s_selects_shape {H R : Type} [Inhabited H] (w : World H R)
    (osArgs : List String) (jsonFileName : String) :
    (isK8s osArgs = true ↔ ∃ a ∈ osArgs, a = "kubernetes" ∨ a = "k8s")
    ∧ (isK8s osArgs = false →
        getReportFromJson w osArgs jsonFileName = readJson w w.decodeReport jsonFileName)
    ∧ (isK8s osArgs = true →
        getReportFromJson w osArgs jsonFileName
          = Act.bind (readJson w w.decodeK8s jsonFileName) fun r =>
              match r with
              | Except.error err => Act.pure (Except.error err)
              | Except.ok k => Act.pure (Except.ok (flattenK8s k))) := by
  refine ⟨?_, ?_, ?_⟩
  · rw [isK8s_iff]
    constructor
    · rintro (h | h)
      · exact ⟨_, h, Or.inl rfl⟩
      · exact ⟨_, h, Or.inr rfl⟩
    · rintro ⟨a, ha, rfl | rfl⟩
      · exact Or.inl ha
      · exact Or.inr ha
  · intro h
    simp [getReportFromJson, h]
  · intro h
    simp [getReportFromJson, h]

/-- At `okWorld`, `flatArgs` selects the flat shape and `k8sArgs` the Kubernetes
shape. -/
theorem isK8s_selects_shape_witness :
    isK8s flatArgs = false ∧ isK8s k8sArgs = true
    ∧ getReportFromJson okWorld flatArgs "t.json" = readJson okWorld okWorld.decodeReport "t.json"
    ∧ (getReportFromJson okWorld k8sArgs "t.json").1
        = Ctl.ret (Except.ok { Header := 0, Results := [1, 2, 3, 4] }) :=
  ⟨by decide, by decide,
   (isK8s_selects_shape okWorld flatArgs "t.json").2.1 (by decide),
   by rw [(isK8s_selects_shape okWorld k8sArgs "t.json").2.2 (by decide)]; rfl⟩

/-- When the `append` of line 55 writes in place, the mode that `main` decodes in is
decided by the command line without its last element. -/
theorem isK8s_after_append (argsCap : Nat) (osArgs : List String)
    (hroom : osArgs.length + 3 ≤ argsCap) :
    isK8s (argsAfterAppend argsCap osArgs) = isK8s osArgs.dropLast := by
  have h1 : ¬ "kubernetes" = "--format" := by decide
  have h2 : ¬ "k8s" = "--format" := by decide
  rw [argsAfterAppend, if_pos hroom, Bool.eq_iff_iff, isK8s_iff, isK8s_iff]
  simp [h1, h2]

/-- When the `append` of line 55 has to copy, the mode that `main` decodes in is
decided by the whole command line. -/
theorem isK8s_after_copy (argsCap : Nat) (osArgs : List String)
    (hroom : ¬ osArgs.length + 3 ≤ argsCap) :
    isK8s (argsAfterAppend argsCap osArgs) = isK8s osArgs := by
  rw [argsAfterAppend, if_neg hroom]

/-- C2 at the command line `csv-report`, 34 times `x`, `k8s`, with room for 39 elements
in the backing array of `os.Args`: an element of the command line is exactly `k8s`,
and `isK8s` is true on the command line, yet when `getReportFromJson` calls it the
`append` of line 55 has overwritten that element with `--format`, `isK8s` returns
false and the flat shape is decoded; without the spare room the Kubernetes shape is
decoded. -/
theorem isK8s_lost_after_append :
    "k8s" ∈ longArgs
    ∧ longArgs[longArgs.length - 1]? = some "k8s"
    ∧ isK8s longArgs = true
    ∧ argsAfterAppend roomyWorld.argsCap longArgs
        = "csv-report" :: (List.replicate 34 "x" ++ ["--format"])
    ∧ isK8s (argsAfterAppend roomyWorld.argsCap longArgs) = false
    ∧ getReportFromJson roomyWorld (argsAfterAppend roomyWorld.argsCap longArgs)
          "/tmp/csv-report-temp.json"
        = (Ctl.ret (Except.ok { Header := 2, Results := [10, 11] }),
           [Event.openFile "/tmp/csv-report-temp.json",
            Event.closeFile "/tmp/csv-report-temp.json"])
    ∧ main roomyFlatRejectWorld longArgs
        = (Ctl.exit 1,
           [Event.run "trivy"
              (List.replicate 34 "x"
                ++ ["--format", "json", "--output", "/tmp/csv-report-temp.json"]),
            Event.openFile "/tmp/csv-report-temp.json",
            Event.closeFile "/tmp/csv-report-temp.json",
            Event.fatal "failed to extract jsonReport from json: %v" "flat decoder asked"])
    ∧ main tightFlatRejectWorld longArgs
        = (Ctl.ret (),
           [Event.run "trivy"
              (List.replicate 34 "x"
                ++ ["--format", "json", "--output", "/tmp/csv-report-temp.json"]),
            Event.openFile "/tmp/csv-report-temp.json",
            Event.closeFile "/tmp/csv-report-temp.json",
            Event.createFile "k8s",
            Event.newTemplateWriter "k8s" "@/usr/local/bin/csv.tpl",
            Event.write "k8s",
            Event.closeFile "k8s",
            Event.removeFile "/tmp/csv-report-temp.json"]) :=
  ⟨by decide, rfl, rfl, rfl, rfl, rfl, rfl, rfl⟩

/-- C3: outside Kubernetes mode `getReportFromJson` is the identity on what the
decoder yields: a decoded report `r` is returned as it is, every field unchanged, and
a failure of the decoder (or of opening the file) is returned as the same error. -/
theorem getReportFromJson_flat_identity {H R : Type} [Inhabited H] (w : World H R)
    (osArgs : List String) (jsonFileName : String) (hmode : isK8s osArgs = false) :
    (∀ r : Report H R, (readJson w w.decodeReport jsonFileName).1 = Ctl.ret (Except.ok r) →
        (getReportFromJson w osArgs jsonFileName).1 = Ctl.ret (Except.ok r))
    ∧ (∀ err : Error,
        (readJson w w.decodeReport jsonFileName).1 = Ctl.ret (Except.error err) →
        (getReportFromJson w osArgs jsonFileName).1 = Ctl.ret (Except.error err))
    ∧ (∀ (data : FileData) (r : Report H R), w.osOpen jsonFileName = Except.ok data →
        w.decodeReport data = Except.ok r → w.fileClose jsonFileName = none →
        getReportFromJson w osArgs jsonFileName
          = (Ctl.ret (Except.ok r),
             [Event.openFile jsonFileName, Event.closeFile jsonFileName]))
    ∧ (∀ (data : FileData) (err : Error), w.osOpen jsonFileName = Except.ok data →
        w.decodeReport data = Except.error err → w.fileClose jsonFileName = none →
        getReportFromJson w osArgs jsonFileName
          = (Ctl.ret (Except.error err),
             [Event.openFile jsonFileName, Event.closeFile jsonFileName]))
    ∧ (∀ err : Error, w.osOpen jsonFileName = Except.error err →
        getReportFromJson w osArgs jsonFileName
          = (Ctl.ret (Except.error err), [Event.openFile jsonFileName])) := by
  have hsel : getReportFromJson w osArgs jsonFileName
      = readJson w w.decodeReport jsonFileName := by
    simp [getReportFromJson, hmode]
  rw [hsel]
  refine ⟨fun _ h => h, fun _ h => h, ?_, ?_, ?_⟩
  · intro data r ho hd hc
    simp [readJson, ho, hd, closeFile, hc, Act.bind, Act.pure, emit, withDefer]
  · intro data err ho hd hc
    simp [readJson, ho, hd, closeFile, hc, Act.bind, Act.pure, emit, withDefer]
  · intro err ho
    simp [readJson, ho, Act.bind, Act.pure, emit]

/-- C3 at `okWorld` and `flatArgs`: the decoded report, header included, comes back
unchanged. -/
theorem getReportFromJson_flat_identity_witness :
    isK8s flatArgs = false
    ∧ getReportFromJson okWorld flatArgs "t.json"
        = (Ctl.ret (Except.ok { Header := 2, Results := [10, 11] }),
           [Event.openFile "t.json", Event.closeFile "t.json"]) :=
  ⟨by decide,
   (getReportFromJson_flat_identity okWorld flatArgs "t.json" (by decide)).2.2.1
     [123, 125] { Header := 2, Results := [10, 11] } rfl rfl rfl⟩

/-! ## The CVSS pickers -/

/-- C9: `nvdV3Score` and `nvdV3Vector` return the `V3Score` and `V3Vector` stored
under the key `nvd`, `rhV3Score` and `rhV3Vector` those stored under `redhat`;
setting or deleting any other key changes none of them; when the vendor key is
absent the score is `0` and the vector is the empty string. -/
theorem vendor_pickers {F : Type} [Zero F] (m : VendorCVSS F) :
    (∀ c, m "nvd" = some c → nvdV3Score m = c.V3Score ∧ nvdV3Vector m = c.V3Vector)
    ∧ (∀ c, m "redhat" = some c → rhV3Score m = c.V3Score ∧ rhV3Vector m = c.V3Vector)
    ∧ (m "nvd" = none → nvdV3Score m = 0 ∧ nvdV3Vector m = "")
    ∧ (m "redhat" = none → rhV3Score m = 0 ∧ rhV3Vector m = "")
    ∧ (∀ key v, key ≠ "nvd" →
        nvdV3Score (mapSet m key v) = nvdV3Score m
        ∧ nvdV3Vector (mapSet m key v) = nvdV3Vector m
        ∧ nvdV3Score (mapDelete m key) = nvdV3Score m
        ∧ nvdV3Vector (mapDelete m key) = nvdV3Vector m)
    ∧ (∀ key v, key ≠ "redhat" →
        rhV3Score (mapSet m key v) = rhV3Score m
        ∧ rhV3Vector (mapSet m key v) = rhV3Vector m
        ∧ rhV3Score (mapDelete m key) = rhV3Score m
        ∧ rhV3Vector (mapDelete m key) = rhV3Vector m)
    ∧ (∀ m' : VendorCVSS F, m' "nvd" = m "nvd" →
        nvdV3Score m' = nvdV3Score m ∧ nvdV3Vector m' = nvdV3Vector m)
    ∧ (∀ m' : VendorCVSS F, m' "redhat" = m "redhat" →
        rhV3Score m' = rhV3Score m ∧ rhV3Vector m' = rhV3Vector m) := by
  refine ⟨?_, ?_, ?_, ?_, ?_, ?_, ?_, ?_⟩
  · intro c h
    simp [nvdV3Score, nvdV3Vector, mapIndex, h]
  · intro c h
    simp [rhV3Score, rhV3Vector, mapIndex, h]
  · intro h
    simp [nvdV3Score, nvdV3Vector, mapIndex, h, CVSS.zero]
  · intro h
    simp [rhV3Score, rhV3Vector, mapIndex, h, CVSS.zero]
  · intro key v h
    have h' : ¬ "nvd" = key := fun e => h e.symm
    simp [nvdV3Score, nvdV3Vector, mapIndex, mapSet, mapDelete, h']
  · intro key v h
    have h' : ¬ "redhat" = key := fun e => h e.symm
    simp [rhV3Score, rhV3Vector, mapIndex, mapSet, mapDelete, h']
  · intro m' h
    simp [nvdV3Score, nvdV3Vector, mapIndex, h]
  · intro m' h
    simp [rhV3Score, rhV3Vector, mapIndex, h]

/-- C9 at `sampleCvss` and `emptyCvss`: the scores and vectors of both vendors are the
stored ones, and on the empty map they are `0` and empty. -/
theorem vendor_pickers_witness :
    (nvdV3Score sampleCvss = 98 ∧ nvdV3Vector sampleCvss = "CVSS:3.1/AV:N/AC:L")
    ∧ (rhV3Score sampleCvss = 75 ∧ rhV3Vector sampleCvss = "CVSS:3.1/AV:L/AC:H")
    ∧ (nvdV3Score emptyCvss = 0 ∧ nvdV3Vector emptyCvss = "")
    ∧ (rhV3Score emptyCvss = 0 ∧ rhV3Vector emptyCvss = "") :=
  ⟨(vendor_pickers sampleCvss).1 _ rfl, (vendor_pickers sampleCvss).2.1 _ rfl,
   (vendor_pickers emptyCvss).2.2.1 rfl, (vendor_pickers emptyCvss).2.2.2.1 rfl⟩

/-! ## `escapeCsv` -/

/-- C4, as the code has it: for every input that contains a double quote and does not
end in a backslash, `escapeCsv` yields a double quote, then the input with every double
quote doubled and every other character written as `strconv.Quote` writes it, then a
double quote; when every character is printable and none is a backslash, nothing but
the quotes is changed. -/
theorem escapeCsv_with_quote (tbl : Nat → Bool) (s : String) (hq : dquote ∈ s.data)
    (hend : s.data.getLast? ≠ some backslash) :
    escapeCsv tbl s = String.mk (dquote :: (csvBody tbl s.data ++ [dquote]))
    ∧ (∃ pre post, s.data = pre ++ dquote :: post
        ∧ csvBody tbl s.data = csvBody tbl pre ++ dquote :: dquote :: csvBody tbl post)
    ∧ ((∀ c ∈ s.data, IsPrint tbl c.toNat = true ∧ c ≠ backslash) →
        escapeCsv tbl s = csvField s) := by
  have h := escapeCsvRunes_eq tbl s.data hend
  refine ⟨?_, ?_, fun hp => escapeCsv_unescaped tbl s hp⟩
  · simp only [escapeCsv, h]
  · obtain ⟨pre, post, hs⟩ := List.append_of_mem hq
    refine ⟨pre, post, hs, ?_⟩
    rw [hs, csvBody_append]
    simp [csvBody]

/-- C4, as the code has it, at an input with a quote, a tab and a backslash inside:
the quote is doubled, the tab and the backslash are written as Go escapes. -/
theorem escapeCsv_with_quote_witness :
    dquote ∈ "a\"\tb\\c".data
    ∧ "a\"\tb\\c".data.getLast? ≠ some backslash
    ∧ escapeCsv latin1Only "a\"\tb\\c" = "\"a\"\"\\tb\\\\c\"" :=
  ⟨by decide, by decide,
   (escapeCsv_with_quote latin1Only "a\"\tb\\c" (by decide) (by decide)).1.trans rfl⟩

/-- C4, as stated, fails: the input `a"b`, newline, `c` contains a double quote, and
`escapeCsv` writes the newline as a backslash and the letter `n`, which is not the input
with only its quotes doubled. -/
theorem escapeCsv_newline_counterexample :
    dquote ∈ "a\"b\nc".data
    ∧ (∀ tbl : Nat → Bool, escapeCsv tbl "a\"b\nc" = "\"a\"\"b\\nc\"")
    ∧ csvField "a\"b\nc" = "\"a\"\"b\nc\""
    ∧ (∀ tbl : Nat → Bool, escapeCsv tbl "a\"b\nc" ≠ csvField "a\"b\nc") :=
  have h1 : ∀ tbl : Nat → Bool, escapeCsv tbl "a\"b\nc" = "\"a\"\"b\\nc\"" := fun _ => rfl
  have h2 : "\"a\"\"b\\nc\"" ≠ csvField "a\"b\nc" := by decide
  ⟨by decide, h1, rfl, fun tbl => (h1 tbl).symm ▸ h2⟩

/-- C5 at the input `a` followed by a backslash: `escapeCsv` yields the five characters
quote, `a`, backslash, quote, quote, which is not a well-formed quoted field: the
closing quote has become the second half of a doubled quote. -/
theorem escapeCsv_trailing_backslash :
    (∀ tbl : Nat → Bool, escapeCsv tbl "a\\" = "\"a\\\"\"")
    ∧ (∀ tbl : Nat → Bool, isQuotedField (escapeCsv tbl "a\\") = false)
    ∧ isQuotedField (csvField "a\\") = true :=
  ⟨fun _ => rfl, fun _ => rfl, rfl⟩

/-- C10: on inputs made of printable ASCII characters other than the backslash,
`escapeCsv` yields a double quote, the input with each double quote doubled, a double
quote; stripping the outer quotes and halving the doubled quotes gives the input back,
and `escapeCsv` is injective on these inputs. -/
theorem escapeCsv_printable_ascii (tbl : Nat → Bool) (s : String)
    (h : ∀ c ∈ s.data, printableAscii c ∧ c ≠ backslash) :
    escapeCsv tbl s = csvField s
    ∧ csvUnquote (escapeCsv tbl s) = s
    ∧ ∀ s' : String, (∀ c ∈ s'.data, printableAscii c ∧ c ≠ backslash) →
        escapeCsv tbl s' = escapeCsv tbl s → s' = s := by
  have key : ∀ t : String, (∀ c ∈ t.data, printableAscii c ∧ c ≠ backslash) →
      escapeCsv tbl t = csvField t := fun t ht =>
    escapeCsv_unescaped tbl t fun c hc => ⟨isPrint_ascii tbl c (ht c hc).1, (ht c hc).2⟩
  refine ⟨key s h, ?_, ?_⟩
  · rw [key s h, csvUnquote_csvField]
  · intro s' h' he
    rw [key s h, key s' h'] at he
    rw [← csvUnquote_csvField s', he, csvUnquote_csvField]

/-- C10 at the input `say "hi", ok`. -/
theorem escapeCsv_printable_ascii_witness :
    (∀ c ∈ "say \"hi\", ok".data, printableAscii c ∧ c ≠ backslash)
    ∧ escapeCsv latin1Only "say \"hi\", ok" = "\"say \"\"hi\"\", ok\""
    ∧ csvUnquote (escapeCsv latin1Only "say \"hi\", ok") = "say \"hi\", ok" :=
  ⟨by decide,
   (escapeCsv_printable_ascii latin1Only "say \"hi\", ok" (by decide)).1.trans rfl,
   (escapeCsv_printable_ascii latin1Only "say \"hi\", ok" (by decide)).2.1⟩

/-! ## `main` -/

/-- C6: with at least two elements in `os.Args`, the scanner is run with the elements
after the program name and before the last one, in order, followed by `--format`,
`json`, `--output` and the temporary file path, and the output file is the last
element; with fewer than two elements the slice expression panics and nothing runs. -/
theorem main_argument_split {H R : Type} [Inhabited H] (w : World H R)
    (osArgs : List String) :
    (2 ≤ osArgs.length →
      ∃ prog out rest,
        osArgs = prog :: ((osArgs.drop 1).take (osArgs.length - 2) ++ [out])
        ∧ osArgs[osArgs.length - 1]? = some out
        ∧ splitArgs osArgs = some ((osArgs.drop 1).take (osArgs.length - 2), out)
        ∧ (main w osArgs).2
            = Event.run "trivy" ((osArgs.drop 1).take (osArgs.length - 2)
                ++ ["--format", "json", "--output", w.pathJoin w.tempDir tempJsonFileName])
              :: rest
        ∧ ∀ e ∈ rest, (∀ n a, e ≠ Event.run n a)
            ∧ (∀ p, e = Event.createFile p → p = out)
            ∧ (∀ p tpl, e = Event.newTemplateWriter p tpl → p = out)
            ∧ (∀ p, e = Event.write p → p = out))
    ∧ (osArgs.length < 2 →
        splitArgs osArgs = none
        ∧ main w osArgs = (Ctl.panicked "slice bounds out of range", [])) := by
  constructor
  · intro h
    obtain ⟨prog, out, h1, h2, h3⟩ := splitArgs_some osArgs h
    obtain ⟨rest, hr, hq⟩ := pipeline_trace w (argsAfterAppend w.argsCap osArgs)
      ((osArgs.drop 1).take (osArgs.length - 2)) out (w.pathJoin w.tempDir tempJsonFileName)
    have hm : main w osArgs = withDefer (removeFile w (w.pathJoin w.tempDir tempJsonFileName))
        (pipeline w (argsAfterAppend w.argsCap osArgs)
          ((osArgs.drop 1).take (osArgs.length - 2)) out
          (w.pathJoin w.tempDir tempJsonFileName)) := by
      rw [main, h3]
    rcases withDefer_trace (removeFile w (w.pathJoin w.tempDir tempJsonFileName))
        (pipeline w (argsAfterAppend w.argsCap osArgs)
          ((osArgs.drop 1).take (osArgs.length - 2)) out
          (w.pathJoin w.tempDir tempJsonFileName)) with ht | ht
    · exact ⟨prog, out, rest, h1, h2, h3, by rw [hm, ht, hr], hq⟩
    · refine ⟨prog, out, rest ++ (removeFile w (w.pathJoin w.tempDir tempJsonFileName)).2,
        h1, h2, h3, by rw [hm, ht, hr, List.cons_append], ?_⟩
      intro e he
      rcases List.mem_append.1 he with he | he
      · exact hq e he
      · refine removeFile_forall (fun e => (∀ n a, e ≠ Event.run n a)
            ∧ (∀ p, e = Event.createFile p → p = out)
            ∧ (∀ p tpl, e = Event.newTemplateWriter p tpl → p = out)
            ∧ (∀ p, e = Event.write p → p = out)) w _ ?_ ?_ e he <;> simp
  · intro h
    have h3 := splitArgs_none osArgs h
    refine ⟨h3, ?_⟩
    rw [main, h3]
    rfl

/-- C6 at `okWorld` and `flatArgs`: the scanner gets
`image alpine:3.18 --format json --output /tmp/csv-report-temp.json`, the output file
is `out.csv`; and at the one-element command line `main` panics. -/
theorem main_argument_split_witness :
    2 ≤ flatArgs.length
    ∧ splitArgs flatArgs = some (["image", "alpine:3.18"], "out.csv")
    ∧ (main okWorld flatArgs).2.head?
        = some (Event.run "trivy"
            ["image", "alpine:3.18", "--format", "json", "--output",
             "/tmp/csv-report-temp.json"])
    ∧ main okWorld ["csv-report"] = (Ctl.panicked "slice bounds out of range", []) := by
  obtain ⟨prog, out, rest, -, -, h3, h4, -⟩ :=
    (main_argument_split okWorld flatArgs).1 (by decide)
  refine ⟨by decide, rfl, ?_,
    ((main_argument_split okWorld ["csv-report"]).2 (by decide)).2⟩
  rw [h4]
  rfl

/-- C7: when reading the temporary JSON file fails, in either mode, `main` ends
through `log.Fatalf` with exit code 1, the last effect being the fatal log, and no
effect creates or writes the output file; `getReportFromJson` returns no report, not
even a partly flattened one. -/
theorem decode_failure_no_output {H R : Type} [Inhabited H] (w : World H R)
    (osArgs : List String) (hargs : 2 ≤ osArgs.length)
    (hdec : decodeFails w (argsAfterAppend w.argsCap osArgs)
      (w.pathJoin w.tempDir tempJsonFileName) = true) :
    (main w osArgs).1 = Ctl.exit 1
    ∧ (∀ e ∈ (main w osArgs).2, e.touchesOutput = false)
    ∧ (∃ fmt err, (main w osArgs).2.getLast? = some (Event.fatal fmt err))
    ∧ (∀ rep, (getReportFromJson w (argsAfterAppend w.argsCap osArgs)
        (w.pathJoin w.tempDir tempJsonFileName)).1 ≠ Ctl.ret (Except.ok rep)) := by
  obtain ⟨prog, out, -, -, h3⟩ := splitArgs_some osArgs hargs
  obtain ⟨hp1, hp2⟩ := pipeline_decode_failure w (argsAfterAppend w.argsCap osArgs)
    ((osArgs.drop 1).take (osArgs.length - 2)) out _ hdec
  have hm : main w osArgs = pipeline w (argsAfterAppend w.argsCap osArgs)
      ((osArgs.drop 1).take (osArgs.length - 2)) out
      (w.pathJoin w.tempDir tempJsonFileName) := by
    rw [main, h3]
    exact withDefer_exit _ _ 1 hp1
  have hexit : (main w osArgs).1 = Ctl.exit 1 := by rw [hm, hp1]
  refine ⟨hexit, by rw [hm]; exact hp2, (exitOk_main w osArgs 1 hexit).2,
    getReport_fails w _ _ hdec⟩

/-- C7 at `badJsonWorld`, in flat mode. -/
theorem decode_failure_no_output_witness :
    2 ≤ flatArgs.length
    ∧ decodeFails badJsonWorld (argsAfterAppend badJsonWorld.argsCap flatArgs)
        (badJsonWorld.pathJoin badJsonWorld.tempDir tempJsonFileName) = true
    ∧ (main badJsonWorld flatArgs).1 = Ctl.exit 1
    ∧ (∀ e ∈ (main badJsonWorld flatArgs).2, e.touchesOutput = false)
    ∧ (∃ fmt err, (main badJsonWorld flatArgs).2.getLast? = some (Event.fatal fmt err)) :=
  ⟨by decide, rfl,
   (decode_failure_no_output badJsonWorld flatArgs (by decide) rfl).1,
   (decode_failure_no_output badJsonWorld flatArgs (by decide) rfl).2.1,
   (decode_failure_no_output badJsonWorld flatArgs (by decide) rfl).2.2.1⟩

/-- C8 on the five fatal paths and on the successful one: when the scanner fails, when
decoding fails, when the output file cannot be created, when the template cannot be
loaded and when rendering fails, `main` ends through `log.Fatalf` and performs no
removal of the temporary file; only the run that returns normally removes it. -/
theorem fatal_paths_skip_removal :
    main scanFailWorld flatArgs
      = (Ctl.exit 1,
         [Event.run "trivy" ["image", "alpine:3.18", "--format", "json", "--output",
            "/tmp/csv-report-temp.json"],
          Event.fatal "failed to build report: %v" "exit status 1"])
    ∧ main badJsonWorld flatArgs
      = (Ctl.exit 1,
         [Event.run "trivy" ["image", "alpine:3.18", "--format", "json", "--output",
            "/tmp/csv-report-temp.json"],
          Event.openFile "/tmp/csv-report-temp.json",
          Event.closeFile "/tmp/csv-report-temp.json",
          Event.fatal "failed to extract jsonReport from json: %v"
            "unexpected end of JSON input"])
    ∧ main createFailWorld flatArgs
      = (Ctl.exit 1,
         [Event.run "trivy" ["image", "alpine:3.18", "--format", "json", "--output",
            "/tmp/csv-report-temp.json"],
          Event.openFile "/tmp/csv-report-temp.json",
          Event.closeFile "/tmp/csv-report-temp.json",
          Event.createFile "out.csv",
          Event.fatal "failed to create file %v" "permission denied"])
    ∧ main templateFailWorld flatArgs
      = (Ctl.exit 1,
         [Event.run "trivy" ["image", "alpine:3.18", "--format", "json", "--output",
            "/tmp/csv-report-temp.json"],
          Event.openFile "/tmp/csv-report-temp.json",
          Event.closeFile "/tmp/csv-report-temp.json",
          Event.createFile "out.csv",
          Event.newTemplateWriter "out.csv" "@/usr/local/bin/csv.tpl",
          Event.fatal "failed to initialize template writer: %v"
            "no such file or directory"])
    ∧ main writeFailWorld flatArgs
      = (Ctl.exit 1,
         [Event.run "trivy" ["image", "alpine:3.18", "--format", "json", "--output",
            "/tmp/csv-report-temp.json"],
          Event.openFile "/tmp/csv-report-temp.json",
          Event.closeFile "/tmp/csv-report-temp.json",
          Event.createFile "out.csv",
          Event.newTemplateWriter "out.csv" "@/usr/local/bin/csv.tpl",
          Event.write "out.csv",
          Event.fatal "failed to write results: %v" "template: execution failed"])
    ∧ main okWorld flatArgs
      = (Ctl.ret (),
         [Event.run "trivy" ["image", "alpine:3.18", "--format", "json", "--output",
            "/tmp/csv-report-temp.json"],
          Event.openFile "/tmp/csv-report-temp.json",
          Event.closeFile "/tmp/csv-report-temp.json",
          Event.createFile "out.csv",
          Event.newTemplateWriter "out.csv" "@/usr/local/bin/csv.tpl",
          Event.write "out.csv",
          Event.closeFile "out.csv",
          Event.removeFile "/tmp/csv-report-temp.json"]) :=
  ⟨rfl, rfl, rfl, rfl, rfl, rfl⟩

end CsvReport
